import Mathlib

set_option autoImplicit false

/-!
Verification development for the hybrid retrieval engine of
`app/rag/vector_store.py` (Chroma dense search + rank_bm25 lexical scoring).

The Python module is shallowly embedded below.  Conventions:
  * Python floats are modelled as exact real numbers (`ℝ`); `round(x, 4)` is
    modelled by `round4` (see its doc comment).
  * Fallible collaborators (the LLM provider, the Chroma client, the embedding
    call and the nearest-neighbour query) are modelled as `Except Unit`-valued
    oracles carried in an `Env` record; a raised Python exception is the
    `Except.error` case.
  * The third-party `rank_bm25.BM25Okapi` scorer (k1 = 1.5, b = 0.75,
    epsilon = 0.25) is embedded in full, with `Real.log` for `math.log`.
-/

namespace VectorStore

/-- Helper for `pySplit`: walk the character list, `acc` holding the current
(reversed) in-progress word; whitespace ends a word, runs of whitespace and
leading/trailing whitespace produce no empty words — exactly Python's
no-argument `str.split()`. -/
def splitWsAux : List Char → List Char → List String
  | [], acc => if acc.isEmpty then [] else [String.mk acc.reverse]
  | c :: cs, acc =>
    if c.isWhitespace then
      if acc.isEmpty then splitWsAux cs [] else String.mk acc.reverse :: splitWsAux cs []
    else
      splitWsAux cs (c :: acc)

/-- Python `str.split()` (no separator): split on whitespace runs, dropping
empty fragments.  The corpus and queries considered here are ASCII, where
`Char.isWhitespace` agrees with Python's splitting. -/
def pySplit (s : String) : List String :=
  splitWsAux s.data []

/-- `text.lower().split()`, the tokenizer used by `_bm25_search`
(vector_store.py lines 304 and 306).  ASCII-only inputs make per-character
`Char.toLower` agree with Python's `str.lower`. -/
def tokenize (s : String) : List String :=
  pySplit (String.mk (s.data.map Char.toLower))

/-- Python `zip` over four parallel lists (truncates to the shortest),
as used on `ids, docs, metas, distances` at vector_store.py line 364. -/
def zip4 {α β γ δ : Type} : List α → List β → List γ → List δ → List (α × β × γ × δ)
  | a :: as, b :: bs, c :: cs, d :: ds => (a, b, c, d) :: zip4 as bs cs ds
  | _, _, _, _ => []

/-- Python `max(l)` for a nonempty list (`max_score = max(scores_list)`,
vector_store.py line 316); returns 0 on `[]` (unreachable in the embedding,
as `max` is only taken after the nonempty checks). -/
def listMax : List ℝ → ℝ
  | [] => 0
  | x :: xs => xs.foldl max x

/-- Lookup in a Python dict built by repeated `d[k] = v` assignment, modelled
as the association list of assignments in insertion order: the *last* binding
of a key wins.  `dictGet m k d` is `m.get(k, d)`. -/
noncomputable def dictGet (m : List (String × ℝ)) (k : String) (d : ℝ) : ℝ :=
  match m.reverse.find? (fun p => p.1 == k) with
  | some p => p.2
  | none => d


/-- A document as carried in `_DEFAULT_CORPUS` and in the BM25 corpus lists:
`{"id": ..., "text": ...}`. -/
structure SimpleDoc where
  id : String
  text : String
deriving DecidableEq, Repr

/-- `_DEFAULT_CORPUS` of vector_store.py (lines 24-225), transcribed verbatim. -/
def defaultCorpus : List SimpleDoc := [
  { id := "jobs_demo#1",
    text := "Software Engineer working on backend APIs with FastAPI and cloud services." },
  { id := "jobs_demo#2",
    text := "Machine Learning Engineer focusing on NLP, transformers, and production pipelines." },
  { id := "jobs_demo#3",
    text := "Data Analyst role requiring SQL, dashboards, and storytelling with data." },
  { id := "jobs_demo#4",
    text := "DevOps Engineer supporting CI/CD, Kubernetes, and infrastructure automation." },
  { id := "jobs_demo#5",
    text := "Frontend Developer specializing in React, TypeScript, and modern CSS frameworks." },
  { id := "jobs_demo#6",
    text := "Data Scientist, PhD required, focusing on causal inference and bayesian modeling." },
  { id := "jobs_demo#7",
    text := "Mobile App Developer (iOS) proficient in Swift, SwiftUI, and CoreData." },
  { id := "jobs_demo#8",
    text := "Android Developer with experience in Kotlin, Jetpack Compose, and RxJava." },
  { id := "jobs_demo#9",
    text := "Cloud Architect (AWS) responsible for designing scalable, serverless microservices." },
  { id := "jobs_demo#10",
    text := "Cybersecurity Analyst monitoring for threats, SIEM, and vulnerability assessment." },
  { id := "jobs_demo#11",
    text := "QA Automation Engineer writing test scripts using Selenium, Cypress, and Pytest." },
  { id := "jobs_demo#12",
    text := "Database Administrator (DBA) managing PostgreSQL clusters and query optimization." },
  { id := "jobs_demo#13",
    text := "Site Reliability Engineer (SRE) focused on system observability, SLOs, and incident response." },
  { id := "jobs_demo#14",
    text := "Technical Product Manager defining roadmap for a B2B SaaS platform." },
  { id := "jobs_demo#15",
    text := "AI Researcher publishing papers on multimodal learning and generative models." },
  { id := "jobs_demo#16",
    text := "Game Developer using Unity, C#, and 3D graphics programming." },
  { id := "jobs_demo#17",
    text := "Embedded Systems Engineer programming firmware in C/C++ for IoT devices." },
  { id := "jobs_demo#18",
    text := "UX/UI Designer creating wireframes, prototypes in Figma, and conducting user testing." },
  { id := "jobs_demo#19",
    text := "Graphic Designer for branding, marketing materials, using Adobe Creative Suite." },
  { id := "jobs_demo#20",
    text := "Content Writer specializing in SEO, long-form blog posts, and technical whitepapers." },
  { id := "jobs_demo#21",
    text := "Video Editor proficient in Adobe Premiere Pro, After Effects, and color grading." },
  { id := "jobs_demo#22",
    text := "Animation Artist (3D) using Blender and Maya for character modeling and rigging." },
  { id := "jobs_demo#23",
    text := "Digital Marketing Manager overseeing PPC, SEO, and email marketing campaigns." },
  { id := "jobs_demo#24",
    text := "Sales Development Representative (SDR) doing cold outreach and qualifying leads." },
  { id := "jobs_demo#25",
    text := "Account Executive (AE) managing the full sales cycle and closing enterprise deals." },
  { id := "jobs_demo#26",
    text := "Financial Analyst (FP&A) responsible for budgeting, forecasting, and variance analysis." },
  { id := "jobs_demo#27",
    text := "Accountant (CPA) handling accounts payable, receivable, and financial reporting." },
  { id := "jobs_demo#28",
    text := "Investment Banking Analyst building financial models and executing M&A deals." },
  { id := "jobs_demo#29",
    text := "Management Consultant solving strategic problems for Fortune 500 clients." },
  { id := "jobs_demo#30",
    text := "Business Analyst bridging the gap between stakeholders and the development team." },
  { id := "jobs_demo#31",
    text := "Human Resources (HR) Generalist managing payroll, benefits, and employee relations." },
  { id := "jobs_demo#32",
    text := "Technical Recruiter sourcing candidates for highly specialized engineering roles." },
  { id := "jobs_demo#33",
    text := "Project Manager (PMP) coordinating timelines, resources, and deliverables." },
  { id := "jobs_demo#34",
    text := "Agile Coach / Scrum Master facilitating sprint ceremonies and team processes." },
  { id := "jobs_demo#35",
    text := "Customer Support Specialist handling inbound tickets via Zendesk and live chat." },
  { id := "jobs_demo#36",
    text := "Supply Chain Manager optimizing logistics, inventory, and vendor negotiations." },
  { id := "jobs_demo#37",
    text := "Operations Manager overseeing daily business functions and process improvement." },
  { id := "jobs_demo#38",
    text := "Executive Assistant managing calendars, travel, and communications for C-level." },
  { id := "jobs_demo#39",
    text := "Registered Nurse (RN) working in the Intensive Care Unit (ICU)." },
  { id := "jobs_demo#40",
    text := "Medical Researcher (Biotech) conducting experiments on CAR-T cell therapies." },
  { id := "jobs_demo#41",
    text := "Bioinformatics Scientist analyzing genomic data (NGS) using Python and R." },
  { id := "jobs_demo#42",
    text := "Clinical Research Coordinator (CRC) managing patient recruitment for trials." },
  { id := "jobs_demo#43",
    text := "Pharmacist dispensing medication and advising patients on drug interactions." },
  { id := "jobs_demo#44",
    text := "Mechanical Engineer designing components in SolidWorks and performing FEA." },
  { id := "jobs_demo#45",
    text := "Electrical Engineer designing PCB layouts for consumer electronics." },
  { id := "jobs_demo#46",
    text := "Civil Engineer managing large-scale infrastructure projects and site plans." },
  { id := "jobs_demo#47",
    text := "Aerospace Engineer working on satellite propulsion systems." },
  { id := "jobs_demo#48",
    text := "Paralegal assisting attorneys with case research and document preparation." },
  { id := "jobs_demo#49",
    text := "High School Teacher (Mathematics) teaching Algebra and Calculus." },
  { id := "jobs_demo#50",
    text := "Architect (AIA) designing commercial buildings using AutoCAD and Revit." }
]

namespace BM25

/-!  Model of the third-party `rank_bm25.BM25Okapi` scorer used by
`_bm25_search` (constructed with default parameters `k1=1.5`, `b=0.75`,
`epsilon=0.25`).  `math.log` is `Real.log`.  One corner is totalised: with a
nonempty corpus whose documents are all token-free, Python's `_calc_idf`
raises `ZeroDivisionError` (`idf_sum / len(self.idf)` with an empty
vocabulary); the caller model (`bm25SearchE`) makes that case an explicit
`Except.error` instead of evaluating these functions there.  -/

noncomputable def k1 : ℝ := 3 / 2

noncomputable def bParam : ℝ := 3 / 4

noncomputable def epsilon : ℝ := 1 / 4

/-- `avgdl = num_doc / corpus_size` (exact rational value of the float). -/
def avgdl (corpus : List (List String)) : ℚ :=
  ((corpus.map List.length).sum : ℚ) / (corpus.length : ℚ)

/-- `doc_freqs[i].get(w) or 0`: occurrences of `w` in document `i`. -/
def termFreq (doc : List String) (w : String) : ℕ :=
  doc.count w

/-- `nd[w]`: the number of documents that contain `w`. -/
def docFreq (corpus : List (List String)) (w : String) : ℕ :=
  corpus.countP (fun d => decide (w ∈ d))

/-- The vocabulary: keys of `nd`, i.e. every distinct word of the corpus. -/
def vocab (corpus : List (List String)) : List String :=
  ((corpus.map (fun d => d.dedup)).flatten).dedup

/-- `idf = math.log(corpus_size - freq + 0.5) - math.log(freq + 0.5)`
(`BM25Okapi._calc_idf`, before the negative-idf flooring). -/
noncomputable def rawIdf (n : ℕ) (freq : ℕ) : ℝ :=
  Real.log ((n : ℝ) - (freq : ℝ) + 1 / 2) - Real.log ((freq : ℝ) + 1 / 2)

/-- `self.average_idf = idf_sum / len(self.idf)`. -/
noncomputable def averageIdf (corpus : List (List String)) : ℝ :=
  ((vocab corpus).map (fun w => rawIdf corpus.length (docFreq corpus w))).sum /
    ((vocab corpus).length : ℝ)

/-- The fitted idf table as consulted by `get_scores`:
`self.idf.get(q) or 0`, with words of negative raw idf floored to
`eps = epsilon * average_idf` and out-of-vocabulary words scoring 0. -/
noncomputable def idf (corpus : List (List String)) (w : String) : ℝ :=
  if w ∈ vocab corpus then
    if rawIdf corpus.length (docFreq corpus w) < 0 then
      epsilon * averageIdf corpus
    else
      rawIdf corpus.length (docFreq corpus w)
  else 0

/-- One query word's contribution to one document's score in
`BM25Okapi.get_scores`:
`idf * (q_freq * (k1+1) / (q_freq + k1 * (1 - b + b * doc_len / avgdl)))`. -/
noncomputable def scoreTerm (corpus : List (List String)) (doc : List String)
    (w : String) : ℝ :=
  idf corpus w * ((termFreq doc w : ℝ) * (k1 + 1) /
    ((termFreq doc w : ℝ) +
      k1 * (1 - bParam + bParam * (doc.length : ℝ) / ((avgdl corpus : ℝ)))))

/-- `BM25Okapi.get_scores(query)`: the per-document raw score vector, each
entry the sum of the per-query-word contributions. -/
noncomputable def getScores (corpus : List (List String)) (query : List String) :
    List ℝ :=
  corpus.map (fun doc => (query.map (scoreTerm corpus doc)).sum)

end BM25

/-- The raw BM25 scores `bm25.get_scores(query.lower().split())` computed by
`_bm25_search` over a corpus of `{"id", "text"}` documents. -/
noncomputable def bm25RawScores (queryText : String) (corpus : List SimpleDoc) :
    List ℝ :=
  BM25.getScores (corpus.map (fun d => tokenize d.text)) (tokenize queryText)

/-- `_bm25_search` (vector_store.py lines 289-323): empty corpus returns the
empty mapping; otherwise the scorer is fitted and every raw score is divided
by the batch maximum when that maximum is positive, else reported as `0.0`.
The returned dict is insertion ordered by corpus position.  The
`Except.error` case is the `ZeroDivisionError` raised inside the
`BM25Okapi` constructor when the nonempty corpus has an empty vocabulary
(every document token-free); `_bm25_search` does not catch it. -/
noncomputable def bm25SearchE (queryText : String) (corpus : List SimpleDoc) :
    Except Unit (List (String × ℝ)) :=
  if corpus.isEmpty then Except.ok []
  else
    let tokCorpus := corpus.map (fun d => tokenize d.text)
    if (BM25.vocab tokCorpus).isEmpty then Except.error ()
    else
      let scores := BM25.getScores tokCorpus (tokenize queryText)
      if scores.isEmpty then Except.ok []
      else
        let maxScore := listMax scores
        Except.ok ((corpus.zip scores).map (fun p =>
          (p.1.id, if 0 < maxScore then p.2 / maxScore else 0)))

/-- `_compute_dense_score` (vector_store.py lines 279-286). -/
noncomputable def compute_dense_score (distance : ℝ) : ℝ :=
  if distance ≤ 0 then 1 else 1 / (1 + distance)

/-- Python `round(x, 4)` on the exact value: `round4 x = round(10^4 x)/10^4`.
Mathlib's `round` resolves exact ties upward while Python's float `round`
resolves representable ties to even; no quantity in this development sits on
a tie, so the models agree on everything proved below. -/
noncomputable def round4 (x : ℝ) : ℝ :=
  ((round (x * 10000) : ℤ) : ℝ) / 10000

/-- The four parallel lists of a Chroma `col.query(...)` reply (first query's
row of `ids`, `documents`, `metadatas`, `distances`).  A `metas` entry is
`none` for a JSON `null` metadata and `some md` for a dict; a `distances`
entry is `none` for a `null` distance. -/
structure QueryReply where
  ids : List String
  docs : List String
  metas : List (Option (List (String × String)))
  distances : List (Option ℝ)

/-- A candidate row as built in `search` (lines 364-375 and 381-391). -/
structure Candidate where
  id : String
  text : String
  metadata : List (String × String)
  dense_score : ℝ
  dense_distance : Option ℝ
  source : Option String

/-- A result record as returned by `search` (lines 396-408 and 428-439). -/
structure SearchResult where
  id : String
  text : String
  metadata : List (String × String)
  source : Option String
  dense_score : ℝ
  bm25_score : ℝ
  hybrid_score : ℝ
  score : ℝ
  dense_distance : Option ℝ
  bm25_raw_score : Option ℝ

/-- The fallible collaborators of `search`: `get_llm_provider()`,
`get_collection()`, `embedder.embed([...])[0]` and
`col.query(query_embeddings=[e], n_results=n, ...)`.  An `Except.error` is a
raised Python exception. -/
structure Env where
  provider : Except Unit Unit
  collection : Except Unit Unit
  embed : String → Except Unit (List ℝ)
  queryIndex : List ℝ → ℕ → Except Unit QueryReply

/-- `meta.get("source") if isinstance(meta, dict) else doc_id`. -/
def metaSource (m : Option (List (String × String))) (docId : String) :
    Option String :=
  match m with
  | none => some docId
  | some md => md.lookup "source"

/-- One iteration of the candidate-building loop of `search`
(lines 364-375): substitute distance `1.0` for a `null` distance and convert
the distance to a dense similarity score. -/
noncomputable def candidateOfTuple
    (t : String × String × Option (List (String × String)) × Option ℝ) :
    Candidate :=
  let dd : ℝ := t.2.2.2.getD 1
  { id := t.1, text := t.2.1,
    metadata := (t.2.2.1).getD [],
    dense_score := compute_dense_score dd,
    dense_distance := some dd,
    source := metaSource t.2.2.1 t.1 }

/-- The candidate-building loop of `search` (lines 359-375): zip the reply
columns and build one candidate per returned row. -/
noncomputable def buildCandidates (qr : QueryReply) : List Candidate :=
  (zip4 qr.ids qr.docs qr.metas qr.distances).map candidateOfTuple

/-- A Default-Corpus candidate of the vector-search-failed fallback
(lines 381-391): `dense_score 0.0`, `dense_distance None`. -/
def fallbackCandidate (doc : SimpleDoc) : Candidate :=
  { id := doc.id, text := doc.text, metadata := [], dense_score := 0,
    dense_distance := none, source := some doc.id }

/-- A result of the no-candidates fallback (lines 396-408): every score
`0.0`, `bm25_raw_score` the float `0.0`, `dense_distance None`. -/
def emptyFallbackResult (doc : SimpleDoc) : SearchResult :=
  { id := doc.id, text := doc.text, metadata := [], source := some doc.id,
    dense_score := 0, bm25_score := 0, hybrid_score := 0, score := 0,
    dense_distance := none, bm25_raw_score := some 0 }

/-- The merge step of `search` (lines 420-439): look the candidate's id up in
the BM25 mapping (default `0.0`), form the 60/40 weighted hybrid score from
the unrounded sub-scores, and round every exposed score to 4 digits. -/
noncomputable def mkResult (bm25Map : List (String × ℝ)) (c : Candidate) :
    SearchResult :=
  let bs := dictGet bm25Map c.id 0
  let hybrid := c.dense_score * (6 / 10) + bs * (4 / 10)
  { id := c.id, text := c.text, metadata := c.metadata, source := c.source,
    dense_score := round4 c.dense_score,
    bm25_score := round4 bs,
    hybrid_score := round4 hybrid,
    score := round4 hybrid,
    dense_distance := c.dense_distance,
    bm25_raw_score := none }

/-- `sorted(results, key=lambda x: x["hybrid_score"], reverse=True)`:
a stable descending sort on `hybrid_score` (line 441). -/
noncomputable def rankResults (results : List SearchResult) : List SearchResult :=
  results.mergeSort (fun a b => decide (b.hybrid_score ≤ a.hybrid_score))

/-- `search` (vector_store.py lines 326-449).  `embedderGiven` is whether the
caller passed an `embedder` (when it did not, `get_llm_provider()` runs and
may raise — line 343, outside the `try`).  `get_collection()` (line 344) is
likewise outside the `try`.  The `try` block is the embed call composed with
the index query; on any exception there the Default Corpus becomes the
candidate set.  Note the body never reads `extraCorpus`. -/
noncomputable def search (env : Env) (queryText : String) (topK : ℕ)
    (hydeText : Option String) (extraCorpus : Option (List SimpleDoc))
    (embedderGiven : Bool) : Except Unit (List SearchResult) :=
  (if embedderGiven then Except.ok () else env.provider).bind (fun _ =>
  env.collection.bind (fun _ =>
    let nCandidates := max (topK * 3) 20
    let candidates : List Candidate :=
      match (env.embed (hydeText.getD queryText)).bind
            (fun emb => env.queryIndex emb nCandidates) with
      | Except.error _ => defaultCorpus.map fallbackCandidate
      | Except.ok qr => buildCandidates qr
    if candidates.isEmpty then
      Except.ok ((defaultCorpus.take topK).map emptyFallbackResult)
    else
      (bm25SearchE queryText (candidates.map (fun c => ⟨c.id, c.text⟩))).bind
        (fun bm25Map =>
          Except.ok ((rankResults (candidates.map (mkResult bm25Map))).take topK))))

/-- The Chroma collection's stored rows, reduced to `(id, text)` pairs
(embeddings and metadata do not matter to the claims below). -/
abbrev Store := List SimpleDoc

/-- `col.delete(ids=list(ids))`: Chroma removes the rows whose ids are
listed (absent ids are simply not matched) or raises if the storage layer
fails, modelled by the `storageFails` flag. -/
def chromaDelete (st : Store) (ids : List String) (storageFails : Bool) :
    Except Unit Store :=
  if storageFails then Except.error ()
  else Except.ok ((st : List SimpleDoc).filter (fun e => ! ids.contains e.id))

/-- `delete` (vector_store.py lines 270-276): `col = get_collection()` runs
first, at line 272, *outside* the `try` — `getCollection` models its outcome
and an exception there propagates out of `delete` (`lru_cache` does not
cache exceptions, so an unreachable storage layer raises on every call).
Only the underlying `col.delete` (line 274) is wrapped in the `try/except`
that logs and swallows any failure. -/
def deleteDocs (st : Store) (ids : List String) (getCollection : Except Unit Unit)
    (storageFails : Bool) : Except Unit Store :=
  getCollection.bind (fun _ =>
    match chromaDelete st ids storageFails with
    | Except.ok st2 => Except.ok st2
    | Except.error _ => Except.ok st)

/-- `ensure_seed_documents` (vector_store.py lines 452-495), for a reachable
embedder: `col.get(ids=seed_ids)` reports which seed ids already exist
(`getFails` models its `except` arm, which resets `existing_ids` to the empty
set); documents whose ids are present are not re-added; the embed-and-add
step appends the missing documents unless it fails (`addFails`), in which
case the exception is logged and swallowed. -/
def ensure_seed_documents (st : Store) (getFails addFails : Bool) : Store :=
  let seedIds := defaultCorpus.map (fun d => d.id)
  let existingIds : List String :=
    if getFails then []
    else seedIds.filter (fun i => (st : List SimpleDoc).any (fun e => e.id == i))
  let newDocs := defaultCorpus.filter (fun d => ! existingIds.contains d.id)
  if newDocs.isEmpty then st
  else if addFails then st
  else (st : List SimpleDoc) ++ newDocs

/-! ## Helper lemmas -/

theorem SimpleDoc.eta (d : SimpleDoc) : SimpleDoc.mk d.id d.text = d := rfl

theorem defaultCorpus_ne_nil : defaultCorpus ≠ [] := by
  intro h
  simpa [defaultCorpus] using congrArg List.length h

theorem length_defaultCorpus : defaultCorpus.length = 50 := rfl

theorem le_foldl_max (l : List ℝ) (a : ℝ) : a ≤ l.foldl max a := by
  induction l generalizing a with
  | nil => exact le_refl a
  | cons x xs ih => exact le_trans (le_max_left a x) (ih (max a x))

theorem le_foldl_max_of_mem : ∀ (l : List ℝ) (a x : ℝ), x ∈ l → x ≤ l.foldl max a
  | y :: ys, a, x, hx => by
    rcases List.mem_cons.1 hx with h | h
    · subst h
      exact le_trans (le_max_right a x) (le_foldl_max ys (max a x))
    · exact le_foldl_max_of_mem ys (max a y) x h

theorem foldl_max_mem (l : List ℝ) (a : ℝ) : l.foldl max a = a ∨ l.foldl max a ∈ l := by
  induction l generalizing a with
  | nil => exact Or.inl rfl
  | cons x xs ih =>
    rcases ih (max a x) with h | h
    · rcases max_choice a x with hm | hm
      · exact Or.inl (by rw [List.foldl_cons, h, hm])
      · exact Or.inr (by rw [List.foldl_cons, h, hm]; exact List.mem_cons_self x xs)
    · exact Or.inr (List.mem_cons_of_mem x h)

theorem le_listMax {l : List ℝ} {x : ℝ} (hx : x ∈ l) : x ≤ listMax l := by
  cases l with
  | nil => cases hx
  | cons y ys =>
    rcases List.mem_cons.1 hx with h | h
    · subst h; exact le_foldl_max ys x
    · exact le_foldl_max_of_mem ys y x h

theorem listMax_mem {l : List ℝ} (hl : l ≠ []) : listMax l ∈ l := by
  cases l with
  | nil => exact absurd rfl hl
  | cons y ys =>
    rcases foldl_max_mem ys y with h | h
    · rw [listMax, h]; exact List.mem_cons_self y ys
    · exact List.mem_cons_of_mem y h

theorem dictGet_cases (m : List (String × ℝ)) (k : String) (d : ℝ) :
    dictGet m k d = d ∨ ∃ p ∈ m, dictGet m k d = p.2 := by
  unfold dictGet
  cases hf : m.reverse.find? (fun p => p.1 == k) with
  | none => exact Or.inl rfl
  | some p =>
    refine Or.inr ⟨p, ?_, rfl⟩
    exact List.mem_reverse.1 (List.mem_of_find?_eq_some hf)

theorem round4_zero : round4 0 = 0 := by
  simp [round4]

theorem round4_mono {x y : ℝ} (h : x ≤ y) : round4 x ≤ round4 y := by
  unfold round4
  have h1 : x * 10000 ≤ y * 10000 := by nlinarith
  have h2 : round (x * 10000) ≤ round (y * 10000) := by
    rw [round_eq, round_eq]
    exact Int.floor_le_floor (by linarith)
  have h3 : ((round (x * 10000) : ℤ) : ℝ) ≤ ((round (y * 10000) : ℤ) : ℝ) := by
    exact_mod_cast h2
  linarith

theorem round4_one : round4 1 = 1 := by
  unfold round4
  norm_num

theorem round4_nonneg {x : ℝ} (h : 0 ≤ x) : 0 ≤ round4 x := by
  have := round4_mono h
  rwa [round4_zero] at this

theorem round4_le_one {x : ℝ} (h : x ≤ 1) : round4 x ≤ 1 := by
  have := round4_mono h
  rwa [round4_one] at this

theorem compute_dense_score_nonneg (d : ℝ) : 0 ≤ compute_dense_score d := by
  unfold compute_dense_score
  split
  · norm_num
  · have : (0 : ℝ) < 1 + d := by linarith [lt_of_not_le (by assumption : ¬ d ≤ 0)]
    positivity

theorem compute_dense_score_le_one (d : ℝ) : compute_dense_score d ≤ 1 := by
  unfold compute_dense_score
  split
  · exact le_refl 1
  · rename_i hd
    have hd2 : (0 : ℝ) < d := lt_of_not_le hd
    rw [div_le_one (by linarith)]
    linarith

theorem mem_vocab_of_mem {corpus : List (List String)} {d : List String}
    {w : String} (hd : d ∈ corpus) (hw : w ∈ d) : w ∈ BM25.vocab corpus := by
  unfold BM25.vocab
  rw [List.mem_dedup, List.mem_flatten]
  exact ⟨d.dedup, List.mem_map.2 ⟨d, hd, rfl⟩, List.mem_dedup.2 hw⟩

theorem vocab_ne_nil_of_token {corpus : List (List String)} {d : List String}
    {w : String} (hd : d ∈ corpus) (hw : w ∈ d) : BM25.vocab corpus ≠ [] :=
  List.ne_nil_of_mem (mem_vocab_of_mem hd hw)

/-- The value `_bm25_search` returns on a nonempty, lexically scoreable
corpus, named so theorems can refer to it. -/
noncomputable def normalizedScores (queryText : String) (corpus : List SimpleDoc) :
    List (String × ℝ) :=
  (corpus.zip (bm25RawScores queryText corpus)).map (fun p =>
    (p.1.id, if 0 < listMax (bm25RawScores queryText corpus) then
      p.2 / listMax (bm25RawScores queryText corpus) else 0))

theorem getScores_ne_nil {corpus : List (List String)} {query : List String}
    (h : corpus ≠ []) : BM25.getScores corpus query ≠ [] := by
  unfold BM25.getScores
  simpa using h

theorem bm25SearchE_eq_ok {q : String} {corpus : List SimpleDoc}
    (hne : corpus ≠ [])
    (hv : BM25.vocab (corpus.map (fun d => tokenize d.text)) ≠ []) :
    bm25SearchE q corpus = Except.ok (normalizedScores q corpus) := by
  have h1 : corpus.isEmpty = false := by
    simpa [List.isEmpty_iff] using hne
  have h2 : (BM25.vocab (corpus.map (fun d => tokenize d.text))).isEmpty = false := by
    simpa [List.isEmpty_iff] using hv
  have h3 : (BM25.getScores (corpus.map (fun d => tokenize d.text))
      (tokenize q)).isEmpty = false := by
    simpa [List.isEmpty_iff] using
      @getScores_ne_nil (corpus.map (fun d => tokenize d.text))
        (tokenize q) (by simpa using hne)
  simp only [bm25SearchE, h1, h2, h3, Bool.false_eq_true, if_false,
    normalizedScores, bm25RawScores]

theorem normalizedScores_le_one (q : String) (corpus : List SimpleDoc) :
    ∀ p ∈ normalizedScores q corpus, p.2 ≤ 1 := by
  intro p hp
  unfold normalizedScores at hp
  obtain ⟨pp, hpp, rfl⟩ := List.mem_map.1 hp
  dsimp only
  split
  · rename_i hpos
    exact (div_le_one hpos).2 (le_listMax (List.of_mem_zip hpp).2)
  · norm_num

/-- A query reply whose candidate set `_bm25_search` can score without the
`BM25Okapi` constructor raising: either no candidates at all, or at least one
candidate text contributes a token to the vocabulary. -/
def scoreableReply (qr : QueryReply) : Prop :=
  buildCandidates qr = [] ∨
    BM25.vocab ((buildCandidates qr).map (fun c => tokenize c.text)) ≠ []

/-- The first Default Corpus document has tokens, so any corpus containing
its text is lexically scoreable. -/
theorem software_token :
    "software" ∈ tokenize "Software Engineer working on backend APIs with FastAPI and cloud services." := by
  decide

theorem fallback_corpus_scoreable :
    BM25.vocab (((defaultCorpus.map fallbackCandidate).map
      (fun c => (⟨c.id, c.text⟩ : SimpleDoc))).map (fun d => tokenize d.text)) ≠ [] := by
  apply @vocab_ne_nil_of_token _
    (tokenize "Software Engineer working on backend APIs with FastAPI and cloud services.")
    "software"
  · refine List.mem_map.2 ⟨⟨"jobs_demo#1",
      "Software Engineer working on backend APIs with FastAPI and cloud services."⟩, ?_, rfl⟩
    refine List.mem_map.2 ⟨fallbackCandidate ⟨"jobs_demo#1",
      "Software Engineer working on backend APIs with FastAPI and cloud services."⟩, ?_, rfl⟩
    exact List.mem_map.2 ⟨⟨"jobs_demo#1",
      "Software Engineer working on backend APIs with FastAPI and cloud services."⟩,
      by simp [defaultCorpus], rfl⟩
  · exact software_token

/-! ## Environments used in witnesses and counterexamples -/

/-- An environment whose Chroma client cannot produce the collection:
`get_collection()` raises. -/
def envCollectionDown : Env :=
  { provider := Except.ok (), collection := Except.error (),
    embed := fun _ => Except.error (), queryIndex := fun _ _ => Except.error () }

/-- An environment with a healthy provider and collection whose
nearest-neighbour query always raises (`IndexUnavailableError`). -/
def envIndexDown : Env :=
  { provider := Except.ok (), collection := Except.ok (),
    embed := fun _ => Except.ok [], queryIndex := fun _ _ => Except.error () }

/-! ## Claim theorems -/

/-- **C1**: the claim says `extraDocuments` (`extra_corpus`) is merged into
the BM25 corpus, so an extra document can appear in the results.  In the
code the `extra_corpus` parameter is never read: `search` returns the same
value whatever is passed, so an extra document can never influence or appear
in the output.  This theorem evaluates the code's behaviour: the output is
literally independent of `extra_corpus`. -/
theorem search_ignores_extra_corpus (env : Env) (q : String) (k : ℕ)
    (h : Option String) (extra : Option (List SimpleDoc)) (eg : Bool) :
    search env q k h extra eg = search env q k h none eg := rfl

/-- **C2 (counterexample)**: it is not true that `search` always returns a
well-formed result list: when obtaining the collection fails
(`get_collection()` raises, line 344, outside the `try`), the exception
escapes to the caller. -/
theorem search_can_raise :
    ¬ (∀ (env : Env) (q : String) (k : ℕ) (h : Option String)
        (extra : Option (List SimpleDoc)) (eg : Bool),
        ∃ rs, search env q k h extra eg = Except.ok rs) := by
  intro hAll
  obtain ⟨rs, hrs⟩ := hAll envCollectionDown "query" 4 none none true
  have h0 : search envCollectionDown "query" 4 none none true = Except.error () := rfl
  rw [h0] at hrs
  exact Except.noConfusion hrs

theorem except_bind_ok {ε α β : Type} (a : α) (f : α → Except ε β) :
    (Except.ok a).bind f = f a := rfl

theorem except_bind_error {ε α β : Type} (e : ε) (f : α → Except ε β) :
    (Except.error e : Except ε α).bind f = Except.error e := rfl

theorem fallback_candidates_not_isEmpty :
    (defaultCorpus.map fallbackCandidate).isEmpty = false := rfl

/-- **C2 (amended)**: once the provider and the collection have been
obtained (lines 343-344, the two calls outside the `try`), and as long as the
index never replies with a nonempty candidate set that is entirely
token-free (which would make the `BM25Okapi` constructor raise a
`ZeroDivisionError` at line 417, outside any `try`), every other failure —
embedding the query or querying the index — is converted to the Default
Corpus fallback and `search` returns a well-formed list. -/
theorem search_ok_of_provider_collection (env : Env) (q : String) (k : ℕ)
    (h : Option String) (ec : Option (List SimpleDoc)) (eg : Bool)
    (hp : env.provider = Except.ok ()) (hc : env.collection = Except.ok ())
    (hq : ∀ emb n qr, env.queryIndex emb n = Except.ok qr → scoreableReply qr) :
    ∃ rs, search env q k h ec eg = Except.ok rs := by
  unfold search
  have hpe : (if eg then Except.ok () else env.provider) = Except.ok () := by
    cases eg <;> simp [hp]
  rw [hpe, hc, except_bind_ok, except_bind_ok]
  cases htry : (env.embed (h.getD q)).bind
      (fun emb => env.queryIndex emb (max (k * 3) 20)) with
  | error e =>
    simp only [htry]
    simp only [fallback_candidates_not_isEmpty, Bool.false_eq_true, if_false]
    rw [bm25SearchE_eq_ok (by simp [defaultCorpus, fallbackCandidate])
      fallback_corpus_scoreable, except_bind_ok]
    exact ⟨_, rfl⟩
  | ok qr =>
    simp only [htry]
    by_cases hce : (buildCandidates qr).isEmpty
    · simp only [hce, if_true]
      exact ⟨_, rfl⟩
    · have hcne : buildCandidates qr ≠ [] := by
        simpa [List.isEmpty_iff] using hce
      have hsc : scoreableReply qr := by
        obtain ⟨emb, hemb, hqi⟩ : ∃ emb, env.embed (h.getD q) = Except.ok emb ∧
            env.queryIndex emb (max (k * 3) 20) = Except.ok qr := by
          cases hememb : env.embed (h.getD q) with
          | error e =>
            rw [hememb, except_bind_error] at htry
            exact Except.noConfusion htry
          | ok emb =>
            rw [hememb, except_bind_ok] at htry
            exact ⟨emb, rfl, htry⟩
        exact hq emb _ qr hqi
      rcases hsc with hnil | hvoc
      · exact absurd hnil hcne
      · simp only [hce, Bool.false_eq_true, if_false]
        have hv2 : BM25.vocab (((buildCandidates qr).map
            (fun c => (⟨c.id, c.text⟩ : SimpleDoc))).map (fun d => tokenize d.text)) ≠ [] := by
          rw [List.map_map]
          exact hvoc
        rw [bm25SearchE_eq_ok (by simpa using hcne) hv2, except_bind_ok]
        exact ⟨_, rfl⟩

/-- **C2 (witness)**: the amended theorem applied to a concrete environment
whose index always raises. -/
theorem search_ok_of_provider_collection_witness :
    ∃ rs, search envIndexDown "hello" 4 none none false = Except.ok rs := by
  refine search_ok_of_provider_collection envIndexDown "hello" 4 none none false
    rfl rfl ?_
  intro emb n qr hqr
  exact Except.noConfusion hqr

/-- **C9 (counterexample)**: `delete` does not always return normally:
`get_collection()` at line 272 runs outside the `try`, so a storage-layer
failure while obtaining the collection propagates out of `delete`. -/
theorem delete_can_raise :
    ¬ (∀ (st : Store) (ids : List String) (gc : Except Unit Unit) (f : Bool),
        ∃ st2, deleteDocs st ids gc f = Except.ok st2) := by
  intro hAll
  obtain ⟨st2, h⟩ := hAll [] ["id1"] (Except.error ()) false
  exact Except.noConfusion h

/-- **C9 (amended)**: once the collection has been obtained
(`get_collection()`, line 272, the one step outside the `try`), `delete`
returns normally.  A failure of the underlying storage delete
(`storageFails = true`) is swallowed, leaving the store unchanged; on
success the listed ids are removed, and ids that are absent from the store
simply match nothing â in particular deleting only absent ids returns the
store unchanged, with no error in either case. -/
theorem deleteDocs_swallows_failures (st : Store) (ids : List String) (f : Bool) :
    ∃ st2, deleteDocs st ids (Except.ok ()) f = Except.ok st2 ∧
      (f = false → st2 = st.filter (fun e => ! ids.contains e.id)) ∧
      (f = true → st2 = st) ∧
      (f = false → (∀ e ∈ st, e.id ∉ ids) → st2 = st) := by
  cases f with
  | false =>
    refine ⟨st.filter (fun e => ! ids.contains e.id), rfl, fun _ => rfl,
      fun h => Bool.noConfusion h, fun _ habs => ?_⟩
    apply List.filter_eq_self.2
    intro e he
    have hnm : e.id ∉ ids := habs e he
    simpa using hnm
  | true =>
    exact ⟨st, rfl, fun h => Bool.noConfusion h, fun _ => rfl,
      fun h => Bool.noConfusion h⟩

/-- **C9 (witness)**: deleting an absent id from a concrete one-document
store, with the collection obtained, returns normally. -/
theorem deleteDocs_swallows_failures_witness :
    ∃ st2, deleteDocs [⟨"doc1", "some text"⟩] ["missing-id"]
      (Except.ok ()) false = Except.ok st2 := by
  obtain ⟨st2, hok, -, -, -⟩ :=
    deleteDocs_swallows_failures [⟨"doc1", "some text"⟩] ["missing-id"] false
  exact ⟨st2, hok⟩

/-- **C10**: a `null` distance in the index reply is replaced by `1.0`: the
candidate built from such a row carries `dense_distance = 1.0` and
`dense_score = 1/(1+1) = 0.5`, the result record built from it exposes
exactly those values (`round4 (1/2) = 1/2`), and no candidate of the dense
path ever carries a `null` `dense_distance`. -/
theorem null_distance_never_propagated (qr : QueryReply)
    (t : String × String × Option (List (String × String)) × Option ℝ)
    (ht : t ∈ zip4 qr.ids qr.docs qr.metas qr.distances)
    (hnull : t.2.2.2 = none) :
    candidateOfTuple t ∈ buildCandidates qr ∧
    (candidateOfTuple t).dense_distance = some 1 ∧
    (candidateOfTuple t).dense_score = 1 / 2 ∧
    (∀ m, (mkResult m (candidateOfTuple t)).dense_distance = some 1 ∧
      (mkResult m (candidateOfTuple t)).dense_score = 1 / 2) ∧
    (∀ c ∈ buildCandidates qr, c.dense_distance ≠ none) := by
  have hdd : (candidateOfTuple t).dense_distance = some 1 := by
    simp [candidateOfTuple, hnull]
  have hds : (candidateOfTuple t).dense_score = 1 / 2 := by
    simp only [candidateOfTuple, hnull, Option.getD_none]
    unfold compute_dense_score
    norm_num
  refine ⟨List.mem_map.2 ⟨t, ht, rfl⟩, hdd, hds, fun m => ⟨hdd, ?_⟩, ?_⟩
  · show round4 (candidateOfTuple t).dense_score = 1 / 2
    rw [hds]
    unfold round4
    norm_num
  · intro c hc
    obtain ⟨t2, -, rfl⟩ := List.mem_map.1 hc
    simp [candidateOfTuple]

/-- **C10 (witness)**: the substitution observed on a concrete one-row reply
whose distance is `null`. -/
theorem null_distance_never_propagated_witness :
    candidateOfTuple ("a", "hello", none, none) ∈
      buildCandidates ⟨["a"], ["hello"], [none], [none]⟩ ∧
    (candidateOfTuple ("a", "hello", none, none)).dense_distance = some 1 ∧
    (candidateOfTuple ("a", "hello", none, none)).dense_score = 1 / 2 := by
  obtain ⟨h1, h2, h3, -, -⟩ :=
    null_distance_never_propagated ⟨["a"], ["hello"], [none], [none]⟩
      ("a", "hello", none, none) (by simp [zip4]) rfl
  exact ⟨h1, h2, h3⟩


theorem bm25SearchE_ok_le_one {q : String} {corpus : List SimpleDoc}
    {m : List (String × ℝ)} (hok : bm25SearchE q corpus = Except.ok m) :
    ∀ p ∈ m, p.2 ≤ 1 := by
  intro p hp
  unfold bm25SearchE at hok
  by_cases h1 : corpus.isEmpty = true
  · rw [if_pos h1] at hok
    cases hok
    cases hp
  · rw [if_neg h1] at hok
    by_cases h2 : (BM25.vocab (corpus.map (fun d => tokenize d.text))).isEmpty = true
    · simp only [h2, if_true] at hok
      cases hok
    · simp only [h2, Bool.false_eq_true, if_false] at hok
      by_cases h3 : (BM25.getScores (corpus.map (fun d => tokenize d.text))
          (tokenize q)).isEmpty = true
      · simp only [h3, if_true] at hok
        cases hok
        cases hp
      · simp only [h3, Bool.false_eq_true, if_false] at hok
        cases hok
        obtain ⟨pp, hpp, rfl⟩ := List.mem_map.1 hp
        dsimp only
        split
        · rename_i hpos
          exact (div_le_one hpos).2 (le_listMax (List.of_mem_zip hpp).2)
        · norm_num

/-- Any successful `search` result list arises from one of the two result
paths: the no-candidates Default Corpus echo, or rank-and-truncate over a
nonempty candidate set (dense candidates, or the Default Corpus fallback)
merged with an ok BM25 mapping. -/
theorem search_ok_cases {env : Env} {q : String} {k : ℕ} {h : Option String}
    {ec : Option (List SimpleDoc)} {eg : Bool} {rs : List SearchResult}
    (hok : search env q k h ec eg = Except.ok rs) :
    rs = (defaultCorpus.take k).map emptyFallbackResult ∨
    ∃ (cands : List Candidate) (m : List (String × ℝ)),
      cands ≠ [] ∧
      (cands = defaultCorpus.map fallbackCandidate ∨
        ∃ qr, cands = buildCandidates qr) ∧
      bm25SearchE q (cands.map (fun c => ⟨c.id, c.text⟩)) = Except.ok m ∧
      rs = (rankResults (cands.map (mkResult m))).take k := by
  unfold search at hok
  cases h1 : (if eg then Except.ok () else env.provider) with
  | error e =>
    rw [h1, except_bind_error] at hok
    cases hok
  | ok u =>
    rw [h1, except_bind_ok] at hok
    cases h2 : env.collection with
    | error e =>
      rw [h2, except_bind_error] at hok
      cases hok
    | ok u2 =>
      rw [h2, except_bind_ok] at hok
      cases h3 : (env.embed (h.getD q)).bind
          (fun emb => env.queryIndex emb (max (k * 3) 20)) with
      | error e =>
        simp only [h3] at hok
        simp only [fallback_candidates_not_isEmpty, Bool.false_eq_true,
          if_false] at hok
        cases h4 : bm25SearchE q ((defaultCorpus.map fallbackCandidate).map
            (fun c => ⟨c.id, c.text⟩)) with
        | error e2 =>
          rw [h4, except_bind_error] at hok
          cases hok
        | ok m =>
          rw [h4, except_bind_ok] at hok
          refine Or.inr ⟨defaultCorpus.map fallbackCandidate, m,
            by simp [defaultCorpus], Or.inl rfl, h4, ?_⟩
          cases hok
          rfl
      | ok qr =>
        simp only [h3] at hok
        by_cases h5 : (buildCandidates qr).isEmpty
        · simp only [h5, if_true] at hok
          cases hok
          exact Or.inl rfl
        · simp only [h5, Bool.false_eq_true, if_false] at hok
          cases h4 : bm25SearchE q ((buildCandidates qr).map
              (fun c => ⟨c.id, c.text⟩)) with
          | error e2 =>
            rw [h4, except_bind_error] at hok
            cases hok
          | ok m =>
            rw [h4, except_bind_ok] at hok
            refine Or.inr ⟨buildCandidates qr, m,
              by simpa [List.isEmpty_iff] using h5, Or.inr ⟨qr, rfl⟩, h4, ?_⟩
            cases hok
            rfl

theorem rankResults_pairwise (l : List SearchResult) :
    (rankResults l).Pairwise (fun a b => b.hybrid_score ≤ a.hybrid_score) := by
  have hs : (rankResults l).Pairwise
      (fun a b => (decide (b.hybrid_score ≤ a.hybrid_score)) = true) := by
    unfold rankResults
    exact List.sorted_mergeSort
      (fun a b c hab hbc => by
        simp only [decide_eq_true_eq] at hab hbc ⊢
        exact le_trans hbc hab)
      (fun a b => by
        simp only [Bool.or_eq_true, decide_eq_true_eq]
        exact le_total b.hybrid_score a.hybrid_score)
      l
  exact hs.imp (fun hab => by simpa using hab)


/-- **C8**: every result list `search` returns is sorted in non-increasing
`hybrid_score` order: for adjacent entries `(a, b)`,
`b.hybrid_score ≤ a.hybrid_score`.  The no-candidates echo path returns
all-zero scores (trivially non-increasing); every other path sorts by
`hybrid_score` descending before truncating. -/
theorem search_results_sorted {env : Env} {q : String} {k : ℕ}
    {h : Option String} {ec : Option (List SimpleDoc)} {eg : Bool}
    {rs : List SearchResult} (hok : search env q k h ec eg = Except.ok rs) :
    rs.Chain' (fun a b => b.hybrid_score ≤ a.hybrid_score) := by
  rcases search_ok_cases hok with hfb | ⟨cands, m, -, -, -, hrs⟩
  · subst hfb
    apply List.Pairwise.chain'
    apply List.pairwise_of_forall_mem_list
    intro a ha b hb
    obtain ⟨da, -, rfl⟩ := List.mem_map.1 ha
    obtain ⟨db, -, rfl⟩ := List.mem_map.1 hb
    exact le_refl 0
  · subst hrs
    exact ((rankResults_pairwise _).sublist (List.take_sublist _ _)).chain'

theorem cands_dense_bounds {cands : List Candidate}
    (horigin : cands = defaultCorpus.map fallbackCandidate ∨
      ∃ qr, cands = buildCandidates qr) :
    ∀ c ∈ cands, 0 ≤ c.dense_score ∧ c.dense_score ≤ 1 := by
  intro c hc
  rcases horigin with hfb | ⟨qr, hbc⟩
  · subst hfb
    obtain ⟨d, -, rfl⟩ := List.mem_map.1 hc
    exact ⟨le_refl 0, by norm_num [fallbackCandidate]⟩
  · subst hbc
    obtain ⟨t, -, rfl⟩ := List.mem_map.1 hc
    exact ⟨compute_dense_score_nonneg _, compute_dense_score_le_one _⟩

/-- **C4 (amended)**: for every result record returned by `search`:
`0 ≤ dense_score ≤ 1`, `bm25_score ≤ 1` (it can be negative — see the
counterexample), `score` equals `hybrid_score`, and `hybrid_score` is
`round4` of the 60/40 combination of the *unrounded* sub-scores `d` and `bs`
(of which the exposed `dense_score`/`bm25_score` are the rounded images), as
computed at lines 426 and 433-436. -/
theorem search_results_score_structure {env : Env} {q : String} {k : ℕ}
    {h : Option String} {ec : Option (List SimpleDoc)} {eg : Bool}
    {rs : List SearchResult} (hok : search env q k h ec eg = Except.ok rs) :
    ∀ r ∈ rs, 0 ≤ r.dense_score ∧ r.dense_score ≤ 1 ∧ r.bm25_score ≤ 1 ∧
      r.score = r.hybrid_score ∧
      ∃ d bs, 0 ≤ d ∧ d ≤ 1 ∧ bs ≤ 1 ∧
        r.dense_score = round4 d ∧ r.bm25_score = round4 bs ∧
        r.hybrid_score = round4 (d * (6 / 10) + bs * (4 / 10)) := by
  intro r hr
  rcases search_ok_cases hok with hfb | ⟨cands, m, -, horigin, hbm, hrs⟩
  · subst hfb
    obtain ⟨d, -, rfl⟩ := List.mem_map.1 hr
    refine ⟨le_refl 0, by norm_num [emptyFallbackResult], by norm_num [emptyFallbackResult],
      rfl, 0, 0, le_refl 0, by norm_num, by norm_num,
      round4_zero.symm, round4_zero.symm, ?_⟩
    show (0 : ℝ) = round4 (0 * (6 / 10) + 0 * (4 / 10))
    rw [show (0 : ℝ) * (6 / 10) + 0 * (4 / 10) = 0 by ring, round4_zero]
  · subst hrs
    have hr2 : r ∈ rankResults (cands.map (mkResult m)) :=
      List.mem_of_mem_take hr
    have hr3 : r ∈ cands.map (mkResult m) := by
      unfold rankResults at hr2
      exact List.mem_mergeSort.1 hr2
    obtain ⟨c, hc, rfl⟩ := List.mem_map.1 hr3
    obtain ⟨hd0, hd1⟩ := cands_dense_bounds horigin c hc
    have hbs : dictGet m c.id 0 ≤ 1 := by
      rcases dictGet_cases m c.id 0 with hg | ⟨p, hp, hg⟩
      · rw [hg]; norm_num
      · rw [hg]; exact bm25SearchE_ok_le_one hbm p hp
    refine ⟨round4_nonneg hd0, round4_le_one hd1, round4_le_one hbs, rfl,
      c.dense_score, dictGet m c.id 0, hd0, hd1, hbs, rfl, rfl, rfl⟩


theorem search_index_down_eval (env : Env) (q : String) (k : ℕ)
    (h : Option String) (ec : Option (List SimpleDoc)) (eg : Bool)
    (hp : env.provider = Except.ok ()) (hc : env.collection = Except.ok ())
    (hq : ∀ emb n, env.queryIndex emb n = Except.error ()) :
    search env q k h ec eg = Except.ok
      ((rankResults ((defaultCorpus.map fallbackCandidate).map
        (mkResult (normalizedScores q ((defaultCorpus.map fallbackCandidate).map
          (fun c => ⟨c.id, c.text⟩)))))).take k) := by
  have htry : (env.embed (h.getD q)).bind
      (fun emb => env.queryIndex emb (max (k * 3) 20)) = Except.error () := by
    cases he : env.embed (h.getD q) with
    | error e =>
      cases e
      rw [except_bind_error]
    | ok emb =>
      rw [except_bind_ok]
      exact hq emb _
  unfold search
  have hpe : (if eg then Except.ok () else env.provider) = Except.ok () := by
    cases eg <;> simp [hp]
  rw [hpe, hc, except_bind_ok, except_bind_ok]
  simp only [htry]
  simp only [fallback_candidates_not_isEmpty, Bool.false_eq_true, if_false]
  rw [bm25SearchE_eq_ok (by simp [defaultCorpus]) fallback_corpus_scoreable,
    except_bind_ok]

/-- **C5**: with a healthy provider and collection but an index whose query
always raises, `search` returns exactly `topK` results for `0 < topK ≤ 50`,
all drawn from the Default Corpus, each with `dense_score = 0.0` — and in
particular a non-empty list. -/
theorem search_fallback_returns_topk (env : Env) (q : String) (k : ℕ)
    (h : Option String) (ec : Option (List SimpleDoc)) (eg : Bool)
    (hp : env.provider = Except.ok ()) (hc : env.collection = Except.ok ())
    (hq : ∀ emb n, env.queryIndex emb n = Except.error ())
    (hk0 : 0 < k) (hk50 : k ≤ 50) :
    ∃ rs, search env q k h ec eg = Except.ok rs ∧ rs ≠ [] ∧ rs.length = k ∧
      ∀ r ∈ rs, r.dense_score = 0 ∧ r.id ∈ defaultCorpus.map (fun d => d.id) := by
  refine ⟨_, search_index_down_eval env q k h ec eg hp hc hq, ?_, ?_, ?_⟩
  · have hlen : ((rankResults ((defaultCorpus.map fallbackCandidate).map
        (mkResult (normalizedScores q ((defaultCorpus.map fallbackCandidate).map
          (fun c => ⟨c.id, c.text⟩)))))).take k).length = k := by
      rw [List.length_take]
      unfold rankResults
      rw [List.length_mergeSort, List.length_map, List.length_map,
        length_defaultCorpus]
      omega
    intro hnil
    rw [hnil] at hlen
    simp at hlen
    omega
  · rw [List.length_take]
    unfold rankResults
    rw [List.length_mergeSort, List.length_map, List.length_map,
      length_defaultCorpus]
    omega
  · intro r hr
    have hr2 := List.mem_of_mem_take hr
    unfold rankResults at hr2
    have hr3 := List.mem_mergeSort.1 hr2
    obtain ⟨c, hcmem, rfl⟩ := List.mem_map.1 hr3
    obtain ⟨d, hd, rfl⟩ := List.mem_map.1 hcmem
    constructor
    · show round4 (fallbackCandidate d).dense_score = 0
      show round4 0 = 0
      exact round4_zero
    · exact List.mem_map.2 ⟨d, hd, rfl⟩

/-- **C5 (witness)**: `topK = 3` against a concrete environment whose index
always raises yields exactly 3 Default-Corpus entries with zero dense
scores. -/
theorem search_fallback_returns_topk_witness :
    ∃ rs, search envIndexDown "machine learning" 3 none none false =
        Except.ok rs ∧ rs ≠ [] ∧ rs.length = 3 ∧
      ∀ r ∈ rs, r.dense_score = 0 ∧ r.id ∈ defaultCorpus.map (fun d => d.id) :=
  search_fallback_returns_topk envIndexDown "machine learning" 3 none none false
    rfl rfl (fun _ _ => rfl) (by norm_num) (by norm_num)

/-- **C3 (amended)**: when `search` falls back because the index query
raised, every returned record has `dense_score = 0.0` and a `null`
`dense_distance`; the lexical side still runs, so `bm25_score`,
`hybrid_score` and `score` are *not* forced to `0.0` (see the
counterexample). -/
theorem search_fallback_dense_zero (env : Env) (q : String) (k : ℕ)
    (h : Option String) (ec : Option (List SimpleDoc)) (eg : Bool)
    (hp : env.provider = Except.ok ()) (hc : env.collection = Except.ok ())
    (hq : ∀ emb n, env.queryIndex emb n = Except.error ()) :
    ∃ rs, search env q k h ec eg = Except.ok rs ∧
      ∀ r ∈ rs, r.dense_score = 0 ∧ r.dense_distance = none := by
  refine ⟨_, search_index_down_eval env q k h ec eg hp hc hq, ?_⟩
  intro r hr
  have hr2 := List.mem_of_mem_take hr
  unfold rankResults at hr2
  have hr3 := List.mem_mergeSort.1 hr2
  obtain ⟨c, hcmem, rfl⟩ := List.mem_map.1 hr3
  obtain ⟨d, hd, rfl⟩ := List.mem_map.1 hcmem
  constructor
  · show round4 (fallbackCandidate d).dense_score = 0
    show round4 0 = 0
    exact round4_zero
  · rfl

/-- **C3 (amended, witness)**: the amended theorem at a concrete
environment. -/
theorem search_fallback_dense_zero_witness :
    ∃ rs, search envIndexDown "hello world" 4 none none false =
        Except.ok rs ∧
      ∀ r ∈ rs, r.dense_score = 0 ∧ r.dense_distance = none :=
  search_fallback_dense_zero envIndexDown "hello world" 4 none none false
    rfl rfl (fun _ _ => rfl)


theorem exists_zip_pair {α β : Type} {l1 : List α} {l2 : List β} {b : β}
    (hb : b ∈ l2) (hlen : l1.length = l2.length) : ∃ a, (a, b) ∈ l1.zip l2 := by
  obtain ⟨i, hi, hget⟩ := List.mem_iff_getElem.1 hb
  have hi1 : i < l1.length := by omega
  refine ⟨l1[i], List.mem_iff_getElem.2 ⟨i, ?_, ?_⟩⟩
  · rw [List.length_zip]
    omega
  · rw [List.getElem_zip, hget]

/-- **C6 (amended)**: the lexical scorer on an empty corpus returns the empty
mapping without raising; on a nonempty corpus with a nonempty vocabulary it
returns one normalized score per document, where (i) if the maximum raw
BM25 score is not positive (all zero — or all negative, which the original
claim did not anticipate) every normalized score is `0.0`, and (ii) if the
maximum raw score is positive the maximum normalized score is exactly `1.0`.
(A nonempty corpus whose documents are all token-free makes the scorer
raise; the original claim did not anticipate that either.) -/
theorem bm25_normalization (q : String) (corpus : List SimpleDoc) :
    (corpus = [] → bm25SearchE q corpus = Except.ok []) ∧
    (corpus ≠ [] →
      BM25.vocab (corpus.map (fun d => tokenize d.text)) ≠ [] →
      bm25SearchE q corpus = Except.ok (normalizedScores q corpus) ∧
      (listMax (bm25RawScores q corpus) ≤ 0 →
        ∀ p ∈ normalizedScores q corpus, p.2 = 0) ∧
      (0 < listMax (bm25RawScores q corpus) →
        (∃ p ∈ normalizedScores q corpus, p.2 = 1) ∧
        ∀ p ∈ normalizedScores q corpus, p.2 ≤ 1)) := by
  constructor
  · intro hnil
    subst hnil
    rfl
  · intro hne hv
    refine ⟨bm25SearchE_eq_ok hne hv, ?_, ?_⟩
    · intro hmax p hp
      obtain ⟨pp, hpp, rfl⟩ := List.mem_map.1 hp
      dsimp only
      rw [if_neg (by linarith)]
    · intro hmax
      constructor
      · have hraw : bm25RawScores q corpus ≠ [] := by
          unfold bm25RawScores
          exact getScores_ne_nil (by simpa using hne)
        have hmem := listMax_mem hraw
        have hlen : corpus.length = (bm25RawScores q corpus).length := by
          unfold bm25RawScores BM25.getScores
          rw [List.length_map, List.length_map]
        obtain ⟨c, hcz⟩ := exists_zip_pair hmem hlen
        refine ⟨(c.id, 1), ?_, rfl⟩
        unfold normalizedScores
        refine List.mem_map.2 ⟨(c, listMax (bm25RawScores q corpus)), hcz, ?_⟩
        dsimp only
        rw [if_pos hmax, div_self (ne_of_gt hmax)]
      · intro p hp
        exact normalizedScores_le_one q corpus p hp

/-- **C6 (amended, witness)**: a corpus with no token overlap with the query
has all raw scores `0`, hence all normalized scores `0.0`. -/
theorem bm25_normalization_witness :
    bm25SearchE "zebra" [⟨"a", "x"⟩] =
      Except.ok (normalizedScores "zebra" [⟨"a", "x"⟩]) ∧
    ∀ p ∈ normalizedScores "zebra" [⟨"a", "x"⟩], p.2 = 0 := by
  have h := (bm25_normalization "zebra" [⟨"a", "x"⟩]).2 (by simp)
    (by decide)
  have hscores : bm25RawScores "zebra" [⟨"a", "x"⟩] = [0] := by
    unfold bm25RawScores BM25.getScores BM25.scoreTerm
    have htokq : tokenize "zebra" = ["zebra"] := by decide
    have htokc : ([(⟨"a", "x"⟩ : SimpleDoc)].map (fun d => tokenize d.text)) =
        [["x"]] := by decide
    rw [htokc, htokq]
    have hidf : BM25.idf [["x"]] "zebra" = 0 := by
      unfold BM25.idf
      rw [if_neg]
      decide
    simp [hidf]
  obtain ⟨hok, hzero, -⟩ := h
  refine ⟨hok, hzero ?_⟩
  rw [hscores]
  show listMax [0] ≤ 0
  norm_num [listMax]


/-- The raw idf of a word occurring in both documents of a two-document
corpus is `log(1/2) - log(5/2) < 0`. -/
theorem rawIdf_two_two_neg : BM25.rawIdf 2 2 < 0 := by
  unfold BM25.rawIdf
  have h1 : ((2 : ℕ) : ℝ) - ((2 : ℕ) : ℝ) + 1 / 2 = 1 / 2 := by norm_num
  have h2 : ((2 : ℕ) : ℝ) + 1 / 2 = 5 / 2 := by norm_num
  rw [h1, h2]
  have := Real.log_lt_log (by norm_num : (0 : ℝ) < 1 / 2) (by norm_num : (1 : ℝ) / 2 < 5 / 2)
  linarith

theorem idf_aa_floored :
    BM25.idf [["a"], ["a"]] "a" =
      BM25.epsilon * BM25.averageIdf [["a"], ["a"]] := by
  unfold BM25.idf
  rw [if_pos (by decide), if_pos ?hneg]
  case hneg =>
    show BM25.rawIdf 2 2 < 0
    exact rawIdf_two_two_neg

theorem averageIdf_aa : BM25.averageIdf [["a"], ["a"]] = BM25.rawIdf 2 2 := by
  unfold BM25.averageIdf
  have hv : BM25.vocab [["a"], ["a"]] = ["a"] := by decide
  rw [hv]
  simp only [List.map_cons, List.map_nil, List.sum_cons, List.sum_nil,
    List.length_singleton]
  show (BM25.rawIdf 2 2 + 0) / ((1 : ℕ) : ℝ) = BM25.rawIdf 2 2
  norm_num

theorem idf_aa_neg : BM25.idf [["a"], ["a"]] "a" < 0 := by
  rw [idf_aa_floored, averageIdf_aa]
  have heps : BM25.epsilon = (1 / 4 : ℝ) := rfl
  rw [heps]
  nlinarith [rawIdf_two_two_neg]

theorem scoreTerm_aa :
    BM25.scoreTerm [["a"], ["a"]] ["a"] "a" = BM25.idf [["a"], ["a"]] "a" := by
  unfold BM25.scoreTerm
  have htf : BM25.termFreq ["a"] "a" = 1 := by decide
  have havgdl : BM25.avgdl [["a"], ["a"]] = 1 := by
    unfold BM25.avgdl
    norm_num
  rw [htf, havgdl]
  have hk : BM25.k1 = (3 / 2 : ℝ) := rfl
  have hb : BM25.bParam = (3 / 4 : ℝ) := rfl
  rw [hk, hb]
  norm_num

theorem getScores_aa :
    BM25.getScores [["a"], ["a"]] ["a"] =
      [BM25.idf [["a"], ["a"]] "a", BM25.idf [["a"], ["a"]] "a"] := by
  unfold BM25.getScores
  simp only [List.map_cons, List.map_nil, List.sum_cons, List.sum_nil]
  rw [scoreTerm_aa]
  norm_num

theorem rawScores_aa :
    bm25RawScores "a" [⟨"d1", "a"⟩, ⟨"d2", "a"⟩] =
      [BM25.idf [["a"], ["a"]] "a", BM25.idf [["a"], ["a"]] "a"] := by
  unfold bm25RawScores
  have htokc : ([⟨"d1", "a"⟩, ⟨"d2", "a"⟩] : List SimpleDoc).map
      (fun d => tokenize d.text) = [["a"], ["a"]] := by decide
  have htokq : tokenize "a" = ["a"] := by decide
  rw [htokc, htokq, getScores_aa]

theorem bm25SearchE_aa :
    bm25SearchE "a" [⟨"d1", "a"⟩, ⟨"d2", "a"⟩] =
      Except.ok [("d1", (0 : ℝ)), ("d2", (0 : ℝ))] := by
  unfold bm25SearchE
  rw [if_neg (by decide)]
  have htokc : ([⟨"d1", "a"⟩, ⟨"d2", "a"⟩] : List SimpleDoc).map
      (fun d => tokenize d.text) = [["a"], ["a"]] := by decide
  have htokq : tokenize "a" = ["a"] := by decide
  simp only [htokc, htokq]
  rw [if_neg (by decide), getScores_aa, if_neg (by simp)]
  have hmax : listMax [BM25.idf [["a"], ["a"]] "a", BM25.idf [["a"], ["a"]] "a"] =
      BM25.idf [["a"], ["a"]] "a" := by
    simp [listMax]
  have hcond : (0 < listMax [BM25.idf [["a"], ["a"]] "a",
      BM25.idf [["a"], ["a"]] "a"]) = False := by
    rw [hmax]
    exact eq_false (not_lt.2 (le_of_lt idf_aa_neg))
  simp only [hcond, if_false]
  rfl

/-- **C6 (counterexample)**: the determinism-of-normalization claim is false
as stated.  On the corpus `[{d1, "a"}, {d2, "a"}]` with query `"a"` every raw
BM25 score is the (negative, nonzero) floored idf, so not all raw scores are
`0`, yet the returned mapping is all zeros — its maximum normalized score is
`0.0`, not `1.0`. -/
theorem bm25_normalization_claim_false :
    ¬ (∀ (q : String) (corpus : List SimpleDoc) (m : List (String × ℝ)),
        bm25SearchE q corpus = Except.ok m →
        (∃ s ∈ bm25RawScores q corpus, s ≠ 0) →
        ∃ p ∈ m, p.2 = 1) := by
  intro hAll
  obtain ⟨p, hp, hp1⟩ := hAll "a" [⟨"d1", "a"⟩, ⟨"d2", "a"⟩]
    [("d1", (0 : ℝ)), ("d2", (0 : ℝ))] bm25SearchE_aa
    ⟨BM25.idf [["a"], ["a"]] "a", by rw [rawScores_aa]; exact List.mem_cons_self _ _,
      ne_of_lt idf_aa_neg⟩
  rcases List.mem_cons.1 hp with hpe | hpe
  · subst hpe
    norm_num at hp1
  · rcases List.mem_cons.1 hpe with hpe2 | hpe2
    · subst hpe2
      norm_num at hp1
    · cases hpe2


theorem foldl_max_of_all_le {l : List ℝ} {a : ℝ} (h : ∀ x ∈ l, x ≤ a) :
    l.foldl max a = a := by
  induction l generalizing a with
  | nil => rfl
  | cons x xs ih =>
    rw [List.foldl_cons, max_eq_left (h x (List.mem_cons_self x xs))]
    exact ih (fun y hy => h y (List.mem_cons_of_mem x hy))

theorem dictGet_eq_of_mem_nodup {m : List (String × ℝ)} {k : String} {v d : ℝ}
    (hnd : (m.map Prod.fst).Nodup) (hmem : (k, v) ∈ m) : dictGet m k d = v := by
  unfold dictGet
  cases hf : m.reverse.find? (fun p => p.1 == k) with
  | none =>
    rw [List.find?_eq_none] at hf
    exact absurd (by simp : (((k, v) : String × ℝ).1 == k) = true)
      (hf (k, v) (List.mem_reverse.2 hmem))
  | some p =>
    have hp : p ∈ m := List.mem_reverse.1 (List.mem_of_find?_eq_some hf)
    have hpk : p.1 = k := by simpa using List.find?_some hf
    have hpe : p = (k, v) :=
      List.inj_on_of_nodup_map hnd hp hmem (by rw [hpk])
    rw [hpe]

theorem scoreTerm_eq_zero_of_absent {corpus : List (List String)}
    {doc : List String} {w : String} (h : BM25.termFreq doc w = 0) :
    BM25.scoreTerm corpus doc w = 0 := by
  unfold BM25.scoreTerm
  rw [h]
  push_cast
  simp

theorem mem_zip_map_self {α β : Type} (g : α → β) :
    ∀ {l : List α} {a : α}, a ∈ l → (a, g a) ∈ l.zip (l.map g) := by
  intro l
  induction l with
  | nil => intro a ha; cases ha
  | cons x xs ih =>
    intro a ha
    rcases List.mem_cons.1 ha with rfl | h
    · exact List.mem_cons_self _ _
    · exact List.mem_cons_of_mem _ (ih h)

theorem fallback_bm25_corpus_eq :
    (defaultCorpus.map fallbackCandidate).map
      (fun c => (⟨c.id, c.text⟩ : SimpleDoc)) = defaultCorpus := by
  rw [List.map_map]
  exact List.map_id defaultCorpus


/-! Facts about the query `"fastapi"` against the Default Corpus: the token
occurs exactly once, in the first document. -/

theorem tokenize_fastapi : tokenize "fastapi" = ["fastapi"] := by decide

set_option maxRecDepth 10000 in
theorem fastapi_unique : ∀ t ∈ defaultCorpus.map (fun d => tokenize d.text),
    "fastapi" ∈ t →
    t = tokenize "Software Engineer working on backend APIs with FastAPI and cloud services." := by
  decide

set_option maxRecDepth 10000 in
theorem fastapi_docFreq :
    BM25.docFreq (defaultCorpus.map (fun d => tokenize d.text)) "fastapi" = 1 := by
  decide

theorem fastapi_tf1 :
    BM25.termFreq (tokenize "Software Engineer working on backend APIs with FastAPI and cloud services.")
      "fastapi" = 1 := by
  decide

set_option maxRecDepth 10000 in
theorem default_token_sum_pos :
    0 < ((defaultCorpus.map (fun d => tokenize d.text)).map List.length).sum := by
  decide

theorem softwareDoc_mem :
    (⟨"jobs_demo#1", "Software Engineer working on backend APIs with FastAPI and cloud services."⟩ : SimpleDoc)
      ∈ defaultCorpus := by
  decide

theorem tokCorpus_length :
    (defaultCorpus.map (fun d => tokenize d.text)).length = 50 := by
  rw [List.length_map, length_defaultCorpus]

theorem avgdl_default_pos :
    (0 : ℝ) < ((BM25.avgdl (defaultCorpus.map (fun d => tokenize d.text)) : ℚ) : ℝ) := by
  have h : (0 : ℚ) < BM25.avgdl (defaultCorpus.map (fun d => tokenize d.text)) := by
    unfold BM25.avgdl
    apply div_pos
    · exact_mod_cast default_token_sum_pos
    · rw [tokCorpus_length]
      norm_num
  exact_mod_cast h

theorem fastapi_idf_pos :
    0 < BM25.idf (defaultCorpus.map (fun d => tokenize d.text)) "fastapi" := by
  have hmemv : "fastapi" ∈ BM25.vocab (defaultCorpus.map (fun d => tokenize d.text)) := by
    apply @mem_vocab_of_mem _
      (tokenize "Software Engineer working on backend APIs with FastAPI and cloud services.")
      "fastapi"
    · exact List.mem_map.2 ⟨_, softwareDoc_mem, rfl⟩
    · decide
  have hraw : BM25.rawIdf (defaultCorpus.map (fun d => tokenize d.text)).length
      (BM25.docFreq (defaultCorpus.map (fun d => tokenize d.text)) "fastapi") =
      BM25.rawIdf 50 1 := by
    rw [fastapi_docFreq, tokCorpus_length]
  have hpos : 0 < BM25.rawIdf 50 1 := by
    unfold BM25.rawIdf
    have h1 : ((50 : ℕ) : ℝ) - ((1 : ℕ) : ℝ) + 1 / 2 = 99 / 2 := by norm_num
    have h2 : ((1 : ℕ) : ℝ) + 1 / 2 = 3 / 2 := by norm_num
    rw [h1, h2]
    have := Real.log_lt_log (by norm_num : (0 : ℝ) < 3 / 2) (by norm_num : (3 : ℝ) / 2 < 99 / 2)
    linarith
  unfold BM25.idf
  rw [if_pos hmemv, hraw, if_neg (not_lt.2 (le_of_lt hpos))]
  exact hpos

theorem fastapi_score1_pos :
    0 < BM25.scoreTerm (defaultCorpus.map (fun d => tokenize d.text))
      (tokenize "Software Engineer working on backend APIs with FastAPI and cloud services.")
      "fastapi" := by
  unfold BM25.scoreTerm
  rw [fastapi_tf1]
  apply mul_pos fastapi_idf_pos
  apply div_pos
  · rw [show BM25.k1 = (3 / 2 : ℝ) from rfl]
    push_cast
    norm_num
  · rw [show BM25.k1 = (3 / 2 : ℝ) from rfl, show BM25.bParam = (3 / 4 : ℝ) from rfl]
    have hfrac : (0 : ℝ) ≤ 3 / 4 *
        ((tokenize "Software Engineer working on backend APIs with FastAPI and cloud services.").length : ℝ) /
        ((BM25.avgdl (defaultCorpus.map (fun d => tokenize d.text)) : ℚ) : ℝ) := by
      have hdl : (0 : ℝ) ≤
          ((tokenize "Software Engineer working on backend APIs with FastAPI and cloud services.").length : ℝ) := by
        positivity
      have havg := avgdl_default_pos
      positivity
    push_cast
    push_cast at hfrac
    nlinarith [hfrac]


theorem defaultCorpus_ids_nodup : (defaultCorpus.map (fun d => d.id)).Nodup := by
  decide

theorem fastapi_scores_cases :
    ∀ x ∈ BM25.getScores (defaultCorpus.map (fun d => tokenize d.text)) ["fastapi"],
      x = (List.map (BM25.scoreTerm (defaultCorpus.map (fun d => tokenize d.text))
            (tokenize "Software Engineer working on backend APIs with FastAPI and cloud services."))
            ["fastapi"]).sum ∨ x = 0 := by
  intro x hx
  unfold BM25.getScores at hx
  obtain ⟨t, ht, rfl⟩ := List.mem_map.1 hx
  by_cases hmem : "fastapi" ∈ t
  · left
    rw [fastapi_unique t ht hmem]
  · right
    have htf : BM25.termFreq t "fastapi" = 0 := List.count_eq_zero.2 hmem
    simp only [List.map_cons, List.map_nil, List.sum_cons, List.sum_nil]
    rw [scoreTerm_eq_zero_of_absent htf]
    norm_num

theorem fastapi_sum_pos :
    0 < (List.map (BM25.scoreTerm (defaultCorpus.map (fun d => tokenize d.text))
          (tokenize "Software Engineer working on backend APIs with FastAPI and cloud services."))
          ["fastapi"]).sum := by
  simp only [List.map_cons, List.map_nil, List.sum_cons, List.sum_nil, add_zero]
  exact fastapi_score1_pos

theorem fastapi_sum_mem :
    (List.map (BM25.scoreTerm (defaultCorpus.map (fun d => tokenize d.text))
        (tokenize "Software Engineer working on backend APIs with FastAPI and cloud services."))
        ["fastapi"]).sum ∈
      BM25.getScores (defaultCorpus.map (fun d => tokenize d.text)) ["fastapi"] := by
  unfold BM25.getScores
  refine List.mem_map.2
    ⟨tokenize "Software Engineer working on backend APIs with FastAPI and cloud services.", ?_, rfl⟩
  exact List.mem_map.2 ⟨_, softwareDoc_mem, rfl⟩

theorem fastapi_listMax :
    listMax (BM25.getScores (defaultCorpus.map (fun d => tokenize d.text)) ["fastapi"]) =
      (List.map (BM25.scoreTerm (defaultCorpus.map (fun d => tokenize d.text))
        (tokenize "Software Engineer working on backend APIs with FastAPI and cloud services."))
        ["fastapi"]).sum := by
  have hne : BM25.getScores (defaultCorpus.map (fun d => tokenize d.text)) ["fastapi"] ≠ [] :=
    getScores_ne_nil (by simp [defaultCorpus])
  rcases fastapi_scores_cases _ (listMax_mem hne) with h | h
  · exact h
  · have hle := le_listMax fastapi_sum_mem
    rw [h] at hle
    have := fastapi_sum_pos
    linarith

theorem normalizedScores_keys_nodup (q : String) (corpus : List SimpleDoc)
    (hnd : (corpus.map (fun d => d.id)).Nodup) :
    ((normalizedScores q corpus).map Prod.fst).Nodup := by
  unfold normalizedScores
  rw [List.map_map]
  show ((corpus.zip (bm25RawScores q corpus)).map (fun p => p.1.id)).Nodup
  have hsub : (corpus.zip (bm25RawScores q corpus)).map (fun p => p.1.id) =
      ((corpus.zip (bm25RawScores q corpus)).map Prod.fst).map (fun d => d.id) := by
    rw [List.map_map]
    rfl
  rw [hsub, List.map_fst_zip]
  · exact hnd
  · unfold bm25RawScores BM25.getScores
    rw [List.length_map, List.length_map]

theorem fastapi_raw_eq :
    bm25RawScores "fastapi" defaultCorpus =
      defaultCorpus.map (fun d =>
        (List.map (BM25.scoreTerm (defaultCorpus.map (fun d2 => tokenize d2.text))
          (tokenize d.text)) ["fastapi"]).sum) := by
  unfold bm25RawScores BM25.getScores
  rw [tokenize_fastapi, List.map_map]
  rfl

theorem fastapi_dictGet_one :
    dictGet (normalizedScores "fastapi" defaultCorpus) "jobs_demo#1" 0 = 1 := by
  have hmax : listMax (bm25RawScores "fastapi" defaultCorpus) =
      (List.map (BM25.scoreTerm (defaultCorpus.map (fun d => tokenize d.text))
        (tokenize "Software Engineer working on backend APIs with FastAPI and cloud services."))
        ["fastapi"]).sum := by
    unfold bm25RawScores
    rw [tokenize_fastapi]
    exact fastapi_listMax
  apply dictGet_eq_of_mem_nodup
    (normalizedScores_keys_nodup "fastapi" defaultCorpus defaultCorpus_ids_nodup)
  unfold normalizedScores
  apply List.mem_map.2
  refine ⟨(⟨"jobs_demo#1",
    "Software Engineer working on backend APIs with FastAPI and cloud services."⟩,
    (List.map (BM25.scoreTerm (defaultCorpus.map (fun d => tokenize d.text))
      (tokenize "Software Engineer working on backend APIs with FastAPI and cloud services."))
      ["fastapi"]).sum), ?_, ?_⟩
  · rw [fastapi_raw_eq]
    exact mem_zip_map_self _ softwareDoc_mem
  · dsimp only
    rw [hmax, if_pos fastapi_sum_pos, div_self (ne_of_gt fastapi_sum_pos)]


/-- **C3 (counterexample)**: it is false that an index-failure fallback
returns all scores `0.0`.  With the index raising on every query and the
query `"fastapi"` (whose token occurs exactly in Default Corpus document 1),
the fallback still runs BM25: document 1's result carries
`bm25_score = 1.0` and `hybrid_score = score = 0.4`, not `0.0`. -/
theorem search_fallback_scores_claim_false :
    ¬ (∀ (env : Env) (q : String) (k : ℕ) (h : Option String)
        (ec : Option (List SimpleDoc)) (eg : Bool) (rs : List SearchResult),
        env.provider = Except.ok () → env.collection = Except.ok () →
        (∀ emb n, env.queryIndex emb n = Except.error ()) →
        search env q k h ec eg = Except.ok rs →
        ∀ r ∈ rs, r.dense_score = 0 ∧ r.bm25_score = 0 ∧
          r.hybrid_score = 0 ∧ r.score = 0) := by
  intro hAll
  have hok := search_index_down_eval envIndexDown "fastapi" 50 none none false
    rfl rfl (fun _ _ => rfl)
  rw [fallback_bm25_corpus_eq] at hok
  have hlen : (rankResults ((defaultCorpus.map fallbackCandidate).map
      (mkResult (normalizedScores "fastapi" defaultCorpus)))).length = 50 := by
    unfold rankResults
    rw [List.length_mergeSort, List.length_map, List.length_map, length_defaultCorpus]
  have hmem : mkResult (normalizedScores "fastapi" defaultCorpus)
      (fallbackCandidate ⟨"jobs_demo#1",
        "Software Engineer working on backend APIs with FastAPI and cloud services."⟩) ∈
      (rankResults ((defaultCorpus.map fallbackCandidate).map
        (mkResult (normalizedScores "fastapi" defaultCorpus)))).take 50 := by
    rw [List.take_of_length_le (le_of_eq hlen)]
    unfold rankResults
    rw [List.mem_mergeSort]
    exact List.mem_map.2 ⟨_, List.mem_map.2 ⟨_, softwareDoc_mem, rfl⟩, rfl⟩
  have hprop := hAll envIndexDown "fastapi" 50 none none false _
    rfl rfl (fun _ _ => rfl) hok _ hmem
  have hhyb : (mkResult (normalizedScores "fastapi" defaultCorpus)
      (fallbackCandidate ⟨"jobs_demo#1",
        "Software Engineer working on backend APIs with FastAPI and cloud services."⟩)).hybrid_score
      = 2 / 5 := by
    show round4 ((0 : ℝ) * (6 / 10) +
      dictGet (normalizedScores "fastapi" defaultCorpus) "jobs_demo#1" 0 * (4 / 10)) = 2 / 5
    rw [fastapi_dictGet_one]
    unfold round4
    norm_num
  have hzero := hprop.2.2.1
  rw [hhyb] at hzero
  norm_num at hzero


/-! Facts about `BM25Okapi` fitted on the three-document corpus
`[{d1, "a"}, {d2, "a"}, {d3, "a b"}]`, used to exhibit a negative
normalized BM25 score. -/

theorem rawIdf_3_3_eq : BM25.rawIdf 3 3 = Real.log (1 / 2) - Real.log (7 / 2) := by
  unfold BM25.rawIdf
  have h1 : ((3 : ℕ) : ℝ) - ((3 : ℕ) : ℝ) + 1 / 2 = 1 / 2 := by norm_num
  have h2 : ((3 : ℕ) : ℝ) + 1 / 2 = 7 / 2 := by norm_num
  rw [h1, h2]

theorem rawIdf_3_1_eq : BM25.rawIdf 3 1 = Real.log (5 / 2) - Real.log (3 / 2) := by
  unfold BM25.rawIdf
  have h1 : ((3 : ℕ) : ℝ) - ((1 : ℕ) : ℝ) + 1 / 2 = 5 / 2 := by norm_num
  have h2 : ((1 : ℕ) : ℝ) + 1 / 2 = 3 / 2 := by norm_num
  rw [h1, h2]

theorem rawIdf_3_3_neg : BM25.rawIdf 3 3 < 0 := by
  rw [rawIdf_3_3_eq]
  have := Real.log_lt_log (by norm_num : (0 : ℝ) < 1 / 2) (by norm_num : (1 : ℝ) / 2 < 7 / 2)
  linarith

theorem rawIdf_3_1_pos : 0 < BM25.rawIdf 3 1 := by
  rw [rawIdf_3_1_eq]
  have := Real.log_lt_log (by norm_num : (0 : ℝ) < 3 / 2) (by norm_num : (3 : ℝ) / 2 < 5 / 2)
  linarith

theorem rawIdf_3_1_lt_one : BM25.rawIdf 3 1 < 1 := by
  rw [rawIdf_3_1_eq]
  have hd : Real.log (5 / 2) - Real.log (3 / 2) = Real.log ((5 / 2) / (3 / 2)) :=
    (Real.log_div (by norm_num) (by norm_num)).symm
  have hle : Real.log ((5 / 2 : ℝ) / (3 / 2)) ≤ Real.log 2 :=
    Real.log_le_log (by norm_num) (by norm_num)
  have := Real.log_two_lt_d9
  linarith

theorem sum_rawIdf_3_lt : BM25.rawIdf 3 3 + BM25.rawIdf 3 1 < -(69 / 100) := by
  rw [rawIdf_3_3_eq, rawIdf_3_1_eq]
  have hm1 : Real.log (1 / 2 : ℝ) + Real.log (5 / 2) = Real.log (5 / 4) := by
    rw [← Real.log_mul (by norm_num) (by norm_num)]
    norm_num
  have hm2 : Real.log (7 / 2 : ℝ) + Real.log (3 / 2) = Real.log (21 / 4) := by
    rw [← Real.log_mul (by norm_num) (by norm_num)]
    norm_num
  have hdiff : Real.log (21 / 4 : ℝ) - Real.log (5 / 4) = Real.log ((21 / 4) / (5 / 4)) :=
    (Real.log_div (by norm_num) (by norm_num)).symm
  have hge : Real.log 2 ≤ Real.log ((21 / 4 : ℝ) / (5 / 4)) :=
    Real.log_le_log (by norm_num) (by norm_num)
  have := Real.log_two_gt_d9
  linarith

theorem mix_rawIdf_3_pos : 0 < BM25.rawIdf 3 3 + 9 * BM25.rawIdf 3 1 := by
  rw [rawIdf_3_3_eq, rawIdf_3_1_eq]
  have h1 : Real.log (1 / 2 : ℝ) + 9 * Real.log (5 / 2) =
      Real.log ((1 / 2) * (5 / 2) ^ 9) := by
    rw [Real.log_mul (by norm_num) (by positivity), Real.log_pow]
    push_cast
    ring
  have h2 : Real.log (7 / 2 : ℝ) + 9 * Real.log (3 / 2) =
      Real.log ((7 / 2) * (3 / 2) ^ 9) := by
    rw [Real.log_mul (by norm_num) (by positivity), Real.log_pow]
    push_cast
    ring
  have h3 : Real.log ((7 / 2 : ℝ) * (3 / 2) ^ 9) < Real.log ((1 / 2) * (5 / 2) ^ 9) :=
    Real.log_lt_log (by positivity) (by norm_num)
  linarith

theorem averageIdf3_eq :
    BM25.averageIdf [["a"], ["a"], ["a", "b"]] =
      (BM25.rawIdf 3 3 + BM25.rawIdf 3 1) / 2 := by
  unfold BM25.averageIdf
  rw [show BM25.vocab [["a"], ["a"], ["a", "b"]] = ["a", "b"] from by decide]
  simp only [List.map_cons, List.map_nil, List.sum_cons, List.sum_nil]
  have ha : BM25.rawIdf ([["a"], ["a"], ["a", "b"]] : List (List String)).length
      (BM25.docFreq [["a"], ["a"], ["a", "b"]] "a") = BM25.rawIdf 3 3 := by
    rw [show BM25.docFreq [["a"], ["a"], ["a", "b"]] "a" = 3 from by decide]
    norm_num
  have hb : BM25.rawIdf ([["a"], ["a"], ["a", "b"]] : List (List String)).length
      (BM25.docFreq [["a"], ["a"], ["a", "b"]] "b") = BM25.rawIdf 3 1 := by
    rw [show BM25.docFreq [["a"], ["a"], ["a", "b"]] "b" = 1 from by decide]
    norm_num
  rw [ha, hb]
  norm_num

theorem idf3_a_eq :
    BM25.idf [["a"], ["a"], ["a", "b"]] "a" =
      (BM25.rawIdf 3 3 + BM25.rawIdf 3 1) / 8 := by
  unfold BM25.idf
  rw [if_pos (by decide : "a" ∈ BM25.vocab [["a"], ["a"], ["a", "b"]])]
  have ha : BM25.rawIdf ([["a"], ["a"], ["a", "b"]] : List (List String)).length
      (BM25.docFreq [["a"], ["a"], ["a", "b"]] "a") = BM25.rawIdf 3 3 := by
    rw [show BM25.docFreq [["a"], ["a"], ["a", "b"]] "a" = 3 from by decide]
    norm_num
  rw [ha, if_pos rawIdf_3_3_neg, averageIdf3_eq]
  rw [show BM25.epsilon = (1 / 4 : ℝ) from rfl]
  ring

theorem idf3_b_eq :
    BM25.idf [["a"], ["a"], ["a", "b"]] "b" = BM25.rawIdf 3 1 := by
  unfold BM25.idf
  rw [if_pos (by decide : "b" ∈ BM25.vocab [["a"], ["a"], ["a", "b"]])]
  have hb : BM25.rawIdf ([["a"], ["a"], ["a", "b"]] : List (List String)).length
      (BM25.docFreq [["a"], ["a"], ["a", "b"]] "b") = BM25.rawIdf 3 1 := by
    rw [show BM25.docFreq [["a"], ["a"], ["a", "b"]] "b" = 1 from by decide]
    norm_num
  rw [hb, if_neg (not_lt.2 (le_of_lt rawIdf_3_1_pos))]


theorem round4_neg {x : ℝ} (h : x < -(1 / 20000)) : round4 x < 0 := by
  unfold round4
  have h3 : round (x * 10000) < 0 := by
    rw [round_eq, Int.floor_lt]
    push_cast
    linarith
  have h4 : ((round (x * 10000) : ℤ) : ℝ) < 0 := by exact_mod_cast h3
  linarith

theorem scoreTerm3_d1_a :
    BM25.scoreTerm [["a"], ["a"], ["a", "b"]] ["a"] "a" =
      BM25.idf [["a"], ["a"], ["a", "b"]] "a" * (80 / 71) := by
  unfold BM25.scoreTerm
  rw [show BM25.termFreq ["a"] "a" = 1 from by decide]
  have havg : BM25.avgdl [["a"], ["a"], ["a", "b"]] = 4 / 3 := by
    unfold BM25.avgdl
    norm_num
  rw [havg, show BM25.k1 = (3 / 2 : ℝ) from rfl,
    show BM25.bParam = (3 / 4 : ℝ) from rfl]
  norm_num

theorem scoreTerm3_d1_b :
    BM25.scoreTerm [["a"], ["a"], ["a", "b"]] ["a"] "b" = 0 :=
  scoreTerm_eq_zero_of_absent (by decide)

theorem scoreTerm3_d3 (w : String) (hw : BM25.termFreq ["a", "b"] w = 1) :
    BM25.scoreTerm [["a"], ["a"], ["a", "b"]] ["a", "b"] w =
      BM25.idf [["a"], ["a"], ["a", "b"]] w * (40 / 49) := by
  unfold BM25.scoreTerm
  rw [hw]
  have havg : BM25.avgdl [["a"], ["a"], ["a", "b"]] = 4 / 3 := by
    unfold BM25.avgdl
    norm_num
  rw [havg, show BM25.k1 = (3 / 2 : ℝ) from rfl,
    show BM25.bParam = (3 / 4 : ℝ) from rfl]
  norm_num

theorem raw3_eq :
    bm25RawScores "a b" [⟨"d1", "a"⟩, ⟨"d2", "a"⟩, ⟨"d3", "a b"⟩] =
      [BM25.idf [["a"], ["a"], ["a", "b"]] "a" * (80 / 71),
       BM25.idf [["a"], ["a"], ["a", "b"]] "a" * (80 / 71),
       (BM25.idf [["a"], ["a"], ["a", "b"]] "a" +
         BM25.idf [["a"], ["a"], ["a", "b"]] "b") * (40 / 49)] := by
  unfold bm25RawScores BM25.getScores
  rw [show ([⟨"d1", "a"⟩, ⟨"d2", "a"⟩, ⟨"d3", "a b"⟩] : List SimpleDoc).map
      (fun d => tokenize d.text) = [["a"], ["a"], ["a", "b"]] from by decide,
    show tokenize "a b" = ["a", "b"] from by decide]
  simp only [List.map_cons, List.map_nil, List.sum_cons, List.sum_nil]
  rw [scoreTerm3_d1_a, scoreTerm3_d1_b, scoreTerm3_d3 "a" (by decide),
    scoreTerm3_d3 "b" (by decide)]
  simp only [add_zero, List.cons.injEq, eq_self_iff_true, true_and, and_true]
  ring

theorem idf3_a_neg : BM25.idf [["a"], ["a"], ["a", "b"]] "a" < 0 := by
  rw [idf3_a_eq]
  linarith [sum_rawIdf_3_lt]

theorem score1_lt :
    BM25.idf [["a"], ["a"], ["a", "b"]] "a" * (80 / 71) < -(9 / 100) := by
  rw [idf3_a_eq]
  linarith [sum_rawIdf_3_lt]

theorem score1_neg : BM25.idf [["a"], ["a"], ["a", "b"]] "a" * (80 / 71) < 0 := by
  linarith [score1_lt]

theorem score3_pos :
    0 < (BM25.idf [["a"], ["a"], ["a", "b"]] "a" +
      BM25.idf [["a"], ["a"], ["a", "b"]] "b") * (40 / 49) := by
  rw [idf3_a_eq, idf3_b_eq]
  nlinarith [mix_rawIdf_3_pos]

theorem score3_lt_one :
    (BM25.idf [["a"], ["a"], ["a", "b"]] "a" +
      BM25.idf [["a"], ["a"], ["a", "b"]] "b") * (40 / 49) < 1 := by
  rw [idf3_a_eq, idf3_b_eq]
  linarith [rawIdf_3_3_neg, rawIdf_3_1_lt_one]

theorem listMax3 :
    listMax [BM25.idf [["a"], ["a"], ["a", "b"]] "a" * (80 / 71),
      BM25.idf [["a"], ["a"], ["a", "b"]] "a" * (80 / 71),
      (BM25.idf [["a"], ["a"], ["a", "b"]] "a" +
        BM25.idf [["a"], ["a"], ["a", "b"]] "b") * (40 / 49)] =
      (BM25.idf [["a"], ["a"], ["a", "b"]] "a" +
        BM25.idf [["a"], ["a"], ["a", "b"]] "b") * (40 / 49) := by
  simp only [listMax, List.foldl_cons, List.foldl_nil]
  rw [max_self, max_eq_right (le_of_lt (lt_trans score1_neg score3_pos))]

theorem dict3_d1 :
    dictGet (normalizedScores "a b" [⟨"d1", "a"⟩, ⟨"d2", "a"⟩, ⟨"d3", "a b"⟩]) "d1" 0 =
      BM25.idf [["a"], ["a"], ["a", "b"]] "a" * (80 / 71) /
        ((BM25.idf [["a"], ["a"], ["a", "b"]] "a" +
          BM25.idf [["a"], ["a"], ["a", "b"]] "b") * (40 / 49)) := by
  apply dictGet_eq_of_mem_nodup
    (normalizedScores_keys_nodup "a b" [⟨"d1", "a"⟩, ⟨"d2", "a"⟩, ⟨"d3", "a b"⟩]
      (by decide))
  unfold normalizedScores
  rw [raw3_eq]
  simp only [List.zip_cons_cons, List.zip_nil_right, List.map_cons, List.map_nil]
  rw [listMax3, if_pos score3_pos]
  exact List.mem_cons_self _ _

/-- An environment whose index replies with three user-added documents
`d1 = "a"`, `d2 = "a"`, `d3 = "a b"`, each at distance `1`. -/
noncomputable def envNegBM25 : Env :=
  { provider := Except.ok (), collection := Except.ok (),
    embed := fun _ => Except.ok [1],
    queryIndex := fun _ _ => Except.ok
      ⟨["d1", "d2", "d3"], ["a", "a", "a b"], [none, none, none],
        [some 1, some 1, some 1]⟩ }

theorem search_ok_path_eval (env : Env) (q : String) (k : ℕ) (h : Option String)
    (ec : Option (List SimpleDoc)) (eg : Bool) (qr : QueryReply)
    (m : List (String × ℝ))
    (hp : env.provider = Except.ok ()) (hc : env.collection = Except.ok ())
    (htry : (env.embed (h.getD q)).bind
      (fun emb => env.queryIndex emb (max (k * 3) 20)) = Except.ok qr)
    (hne : (buildCandidates qr).isEmpty = false)
    (hbm : bm25SearchE q ((buildCandidates qr).map (fun c => ⟨c.id, c.text⟩)) =
      Except.ok m) :
    search env q k h ec eg = Except.ok
      ((rankResults ((buildCandidates qr).map (mkResult m))).take k) := by
  unfold search
  have hpe : (if eg then Except.ok () else env.provider) = Except.ok () := by
    cases eg <;> simp [hp]
  rw [hpe, hc, except_bind_ok, except_bind_ok]
  simp only [htry]
  simp only [hne, Bool.false_eq_true, if_false]
  rw [hbm, except_bind_ok]


/-- **C4 (counterexample)**: the score-bounds claim is false as stated:
`bm25_score` can be negative in a returned result.  With three indexed
documents `"a"`, `"a"`, `"a b"` and the query `"a b"`, the common word `a`
gets a floored negative idf while `b` keeps a positive idf, so the two
`"a"`-only documents receive negative raw BM25 scores, the maximum raw score
is positive, and normalization returns a negative `bm25_score` for them. -/
theorem search_scores_bounds_claim_false :
    ¬ (∀ (env : Env) (q : String) (k : ℕ) (h : Option String)
        (ec : Option (List SimpleDoc)) (eg : Bool) (rs : List SearchResult),
        search env q k h ec eg = Except.ok rs →
        ∀ r ∈ rs, 0 ≤ r.bm25_score) := by
  intro hAll
  have hcorpus_eq : (buildCandidates ⟨["d1", "d2", "d3"], ["a", "a", "a b"],
      [none, none, none], [some 1, some 1, some 1]⟩).map
      (fun c => (⟨c.id, c.text⟩ : SimpleDoc)) =
      [⟨"d1", "a"⟩, ⟨"d2", "a"⟩, ⟨"d3", "a b"⟩] := rfl
  have hbm : bm25SearchE "a b" ((buildCandidates ⟨["d1", "d2", "d3"],
      ["a", "a", "a b"], [none, none, none], [some 1, some 1, some 1]⟩).map
      (fun c => ⟨c.id, c.text⟩)) =
      Except.ok (normalizedScores "a b"
        [⟨"d1", "a"⟩, ⟨"d2", "a"⟩, ⟨"d3", "a b"⟩]) := by
    rw [hcorpus_eq]
    exact bm25SearchE_eq_ok (by simp) (by decide)
  have hok := search_ok_path_eval envNegBM25 "a b" 3 none none true
    ⟨["d1", "d2", "d3"], ["a", "a", "a b"], [none, none, none],
      [some 1, some 1, some 1]⟩
    (normalizedScores "a b" [⟨"d1", "a"⟩, ⟨"d2", "a"⟩, ⟨"d3", "a b"⟩])
    rfl rfl rfl rfl hbm
  have hlen : (rankResults ((buildCandidates ⟨["d1", "d2", "d3"],
      ["a", "a", "a b"], [none, none, none], [some 1, some 1, some 1]⟩).map
      (mkResult (normalizedScores "a b"
        [⟨"d1", "a"⟩, ⟨"d2", "a"⟩, ⟨"d3", "a b"⟩])))).length = 3 := by
    unfold rankResults
    rw [List.length_mergeSort, List.length_map]
    rfl
  have hmem : mkResult (normalizedScores "a b"
      [⟨"d1", "a"⟩, ⟨"d2", "a"⟩, ⟨"d3", "a b"⟩])
      (candidateOfTuple ("d1", "a", none, some 1)) ∈
      (rankResults ((buildCandidates ⟨["d1", "d2", "d3"], ["a", "a", "a b"],
        [none, none, none], [some 1, some 1, some 1]⟩).map
        (mkResult (normalizedScores "a b"
          [⟨"d1", "a"⟩, ⟨"d2", "a"⟩, ⟨"d3", "a b"⟩])))).take 3 := by
    rw [List.take_of_length_le (le_of_eq hlen)]
    unfold rankResults
    rw [List.mem_mergeSort]
    apply List.mem_map.2
    refine ⟨candidateOfTuple ("d1", "a", none, some 1), ?_, rfl⟩
    exact List.mem_cons_self _ _
  have hprop := hAll envNegBM25 "a b" 3 none none true _ hok _ hmem
  have hbm25 : (mkResult (normalizedScores "a b"
      [⟨"d1", "a"⟩, ⟨"d2", "a"⟩, ⟨"d3", "a b"⟩])
      (candidateOfTuple ("d1", "a", none, some 1))).bm25_score =
      round4 (BM25.idf [["a"], ["a"], ["a", "b"]] "a" * (80 / 71) /
        ((BM25.idf [["a"], ["a"], ["a", "b"]] "a" +
          BM25.idf [["a"], ["a"], ["a", "b"]] "b") * (40 / 49))) := by
    show round4 (dictGet (normalizedScores "a b"
      [⟨"d1", "a"⟩, ⟨"d2", "a"⟩, ⟨"d3", "a b"⟩]) "d1" 0) = _
    rw [dict3_d1]
  have hneg : (mkResult (normalizedScores "a b"
      [⟨"d1", "a"⟩, ⟨"d2", "a"⟩, ⟨"d3", "a b"⟩])
      (candidateOfTuple ("d1", "a", none, some 1))).bm25_score < 0 := by
    rw [hbm25]
    apply round4_neg
    rw [div_lt_iff₀ score3_pos]
    linarith [score1_lt, score3_lt_one, score3_pos]
  linarith [hprop, hneg]

/-- An environment whose index query succeeds but returns no rows. -/
noncomputable def envEmptyReply : Env :=
  { provider := Except.ok (), collection := Except.ok (),
    embed := fun _ => Except.ok [1],
    queryIndex := fun _ _ => Except.ok ⟨[], [], [], []⟩ }

/-- **C4 (amended, witness)**: the structure theorem at a concrete
environment whose index returns no candidates (topK = 2). -/
theorem search_results_score_structure_witness :
    ∃ rs, search envEmptyReply "query" 2 none none true = Except.ok rs ∧
      ∀ r ∈ rs, 0 ≤ r.dense_score ∧ r.dense_score ≤ 1 ∧ r.bm25_score ≤ 1 ∧
        r.score = r.hybrid_score ∧
        ∃ d bs, 0 ≤ d ∧ d ≤ 1 ∧ bs ≤ 1 ∧
          r.dense_score = round4 d ∧ r.bm25_score = round4 bs ∧
          r.hybrid_score = round4 (d * (6 / 10) + bs * (4 / 10)) :=
  ⟨(defaultCorpus.take 2).map emptyFallbackResult, rfl,
    @search_results_score_structure envEmptyReply "query" 2 none none true
      ((defaultCorpus.take 2).map emptyFallbackResult) rfl⟩

/-- **C8 (witness)**: a concrete sorted result list, via an environment whose
index query succeeds with an empty reply. -/
theorem search_results_sorted_witness :
    ∃ rs, search envEmptyReply "query" 3 none none true = Except.ok rs ∧
      rs.Chain' (fun a b => b.hybrid_score ≤ a.hybrid_score) :=
  ⟨(defaultCorpus.take 3).map emptyFallbackResult, rfl,
    @search_results_sorted envEmptyReply "query" 3 none none true
      ((defaultCorpus.take 3).map emptyFallbackResult) rfl⟩

/-- The number of stored rows carrying a given id. -/
def idCount (st : Store) (i : String) : ℕ :=
  st.countP (fun e => e.id == i)

theorem idCount_defaultCorpus {d : SimpleDoc} (hd : d ∈ defaultCorpus) :
    idCount defaultCorpus d.id = 1 := by
  have h1 : idCount defaultCorpus d.id =
      (defaultCorpus.map (fun d => d.id)).count d.id := by
    unfold idCount
    rw [List.count, List.countP_map]
    rfl
  have hmem : d.id ∈ defaultCorpus.map (fun d => d.id) := List.mem_map.2 ⟨d, hd, rfl⟩
  have hle := List.nodup_iff_count_le_one.1 defaultCorpus_ids_nodup d.id
  have hge := List.count_pos_iff.2 hmem
  omega

/-- The `newDocs` selection of `ensure_seed_documents` only depends on which
seed ids are already present. -/
theorem ensure_seed_newDocs (st : Store) :
    defaultCorpus.filter (fun d =>
      ! ((defaultCorpus.map (fun d => d.id)).filter
          (fun i => st.any (fun e => e.id == i))).contains d.id) =
    defaultCorpus.filter (fun d => ! st.any (fun e => e.id == d.id)) := by
  apply List.filter_congr
  intro d hd
  have hmem : d.id ∈ defaultCorpus.map (fun d => d.id) := List.mem_map.2 ⟨d, hd, rfl⟩
  have hcont : ((defaultCorpus.map (fun d => d.id)).filter
      (fun i => st.any (fun e => e.id == i))).contains d.id
      = st.any (fun e => e.id == d.id) := by
    by_cases hpres : st.any (fun e => e.id == d.id) = true
    · rw [hpres]
      exact List.contains_iff_exists_mem_beq.2
        ⟨d.id, List.mem_filter.2 ⟨hmem, hpres⟩, by simp⟩
    · have hfalse : st.any (fun e => e.id == d.id) = false := by
        simpa using hpres
      rw [hfalse]
      cases hc : ((defaultCorpus.map (fun d => d.id)).filter
          (fun i => st.any (fun e => e.id == i))).contains d.id with
      | false => rfl
      | true =>
        obtain ⟨a, ha, hba⟩ := List.contains_iff_exists_mem_beq.1 hc
        have haid : d.id = a := by simpa using hba
        have := (List.mem_filter.1 ha).2
        rw [← haid] at this
        rw [hfalse] at this
        cases this
  rw [hcont]

theorem idCount_append (a b : Store) (i : String) :
    idCount (a ++ b) i = idCount a i + idCount b i := by
  unfold idCount
  exact List.countP_append _ _ _

theorem idCount_pos_iff (st : Store) (i : String) :
    0 < idCount st i ↔ st.any (fun e => e.id == i) = true := by
  unfold idCount
  rw [List.countP_pos_iff, List.any_eq_true]

/-- **C7**: seeding is idempotent.  From any store in which each Default
Corpus id occurs at most once (in particular the empty store), one run of
`ensure_seed_documents` (with reachable storage and embedder) leaves each
default id stored exactly once, and a second run adds nothing: it returns
the store unchanged. -/
theorem ensure_seed_documents_idempotent (st : Store)
    (hst : ∀ d ∈ defaultCorpus, idCount st d.id ≤ 1) :
    (∀ d ∈ defaultCorpus,
      idCount (ensure_seed_documents st false false) d.id = 1) ∧
    ensure_seed_documents (ensure_seed_documents st false false) false false =
      ensure_seed_documents st false false := by
  have hrw : ∀ s : Store, ensure_seed_documents s false false =
      (if (defaultCorpus.filter (fun d => ! s.any (fun e => e.id == d.id))).isEmpty
        then s
        else s ++ defaultCorpus.filter (fun d => ! s.any (fun e => e.id == d.id))) := by
    intro s
    unfold ensure_seed_documents
    simp only [Bool.false_eq_true, if_false]
    rw [ensure_seed_newDocs s]
  have hcount : ∀ d ∈ defaultCorpus,
      idCount (ensure_seed_documents st false false) d.id = 1 := by
    intro d hd
    rw [hrw st]
    by_cases he : (defaultCorpus.filter
        (fun d => ! st.any (fun e => e.id == d.id))).isEmpty
    · rw [if_pos he]
      have hall := List.isEmpty_iff.1 he
      have hpres : st.any (fun e => e.id == d.id) = true := by
        by_contra hnp
        have hmemf : d ∈ defaultCorpus.filter
            (fun d => ! st.any (fun e => e.id == d.id)) :=
          List.mem_filter.2 ⟨hd, by simpa using hnp⟩
        rw [hall] at hmemf
        cases hmemf
      have hpos := (idCount_pos_iff st d.id).2 hpres
      have hle := hst d hd
      omega
    · rw [if_neg he, idCount_append]
      by_cases hpres : st.any (fun e => e.id == d.id) = true
      · have h0 : idCount (defaultCorpus.filter
            (fun d2 => ! st.any (fun e => e.id == d2.id))) d.id = 0 := by
          unfold idCount
          rw [List.countP_eq_zero]
          intro a ha hpa
          have hmemf := List.mem_filter.1 ha
          have haid : a.id = d.id := by simpa using hpa
          rw [haid, hpres] at hmemf
          simpa using hmemf.2
        have hpos := (idCount_pos_iff st d.id).2 hpres
        have hle := hst d hd
        omega
      · have h0 : idCount st d.id = 0 := by
          by_contra hne
          exact hpres ((idCount_pos_iff st d.id).1 (Nat.pos_of_ne_zero hne))
        have h1 : idCount (defaultCorpus.filter
            (fun d2 => ! st.any (fun e => e.id == d2.id))) d.id = 1 := by
          unfold idCount
          rw [List.countP_filter]
          have hcongr : defaultCorpus.countP
              (fun a => (a.id == d.id) && ! st.any (fun e => e.id == a.id)) =
              defaultCorpus.countP (fun a => a.id == d.id) := by
            apply List.countP_congr
            intro a ha
            by_cases haid : a.id = d.id
            · rw [haid]
              have hnp : st.any (fun e => e.id == d.id) = false := by
                simpa using hpres
              rw [hnp]
              simp
            · have hne2 : (a.id == d.id) = false := by simpa using haid
              rw [hne2]
              simp
          rw [hcongr]
          exact idCount_defaultCorpus hd
        omega
  refine ⟨hcount, ?_⟩
  have hall : defaultCorpus.filter (fun d =>
      ! (ensure_seed_documents st false false).any (fun e => e.id == d.id)) = [] := by
    rw [List.filter_eq_nil_iff]
    intro d hd hbd
    have h1 := hcount d hd
    have hpos : 0 < idCount (ensure_seed_documents st false false) d.id := by omega
    have hany := (idCount_pos_iff _ d.id).1 hpos
    rw [hany] at hbd
    simp at hbd
  rw [hrw (ensure_seed_documents st false false), hall]
  simp

/-- **C7 (witness)**: seeding twice from the empty store. -/
theorem ensure_seed_documents_idempotent_witness :
    (∀ d ∈ defaultCorpus,
      idCount (ensure_seed_documents [] false false) d.id = 1) ∧
    ensure_seed_documents (ensure_seed_documents [] false false) false false =
      ensure_seed_documents [] false false := by
  refine ensure_seed_documents_idempotent [] ?_
  intro d hd
  simp [idCount]

end VectorStore
